import Mathlib

/-!
Verification of the bank-statement reconciliation core of the vlm_server
repository.  The Python sources (`bank_table_parser_v3.py`, `bank_parser_v3.py`,
`services/vlm/unified_bank_extractor.py`, `services/vlm/langchain_extractor.py`,
`bank_statement_post_processor.py`) are shallowly embedded here:

* Python strings are modelled as `List Char` (ASCII inputs);
* Python floats are modelled as exact rationals.  All monetary values in
  the sources carry at most two decimal digits, where double arithmetic and
  exact rational arithmetic agree (checked for the constants appearing here:
  `12.5 + 3.2 == 15.7` and `10 * 0.3 == 3.0` hold exactly for doubles);
* fallible operations return `Option`; Python `try/except` blocks become the
  corresponding total case splits.
-/

set_option maxHeartbeats 1000000

abbrev Str := List Char

/-!
## Exact rationals

Python floats are modelled by exact rationals.  A dedicated structure (kept
in lowest terms by its smart constructors, with a fuelled gcd) is used so
that every arithmetic operation reduces inside the Lean kernel, which
`Mathlib`'s `Rat` does not. -/

/-- Euclidean gcd with explicit fuel (`fuel ≥ a` suffices). -/
def gcdF : Nat → Nat → Nat → Nat
  | 0, a, b => if a = 0 then b else a
  | fuel + 1, a, b => if a = 0 then b else gcdF fuel (b % a) a

def natGcd (a b : Nat) : Nat := gcdF (a + 1) a b

/-- An exact rational: numerator and positive denominator in lowest terms
(maintained by the constructors below). -/
structure Q where
  num : ℤ
  den : ℕ
  deriving Repr, DecidableEq

namespace Q

/-- Normalising constructor for a non-negative denominator. -/
def mk' (n : ℤ) (d : ℕ) : Q :=
  let g := natGcd n.natAbs d
  if g = 0 then ⟨0, 1⟩
  else
    let na := n.natAbs / g
    ⟨if n < 0 then -(na : ℤ) else (na : ℤ), d / g⟩

/-- Normalising constructor for an integer denominator. -/
def mkInt (n d : ℤ) : Q :=
  if d < 0 then mk' (-n) (-d).toNat else mk' n d.toNat

def add (a b : Q) : Q := mk' (a.num * b.den + b.num * a.den) (a.den * b.den)

def sub (a b : Q) : Q := mk' (a.num * b.den - b.num * a.den) (a.den * b.den)

def mul (a b : Q) : Q := mk' (a.num * b.num) (a.den * b.den)

def neg (a : Q) : Q := ⟨-a.num, a.den⟩

/-- Division; `a / 0 = 0` (callers guard the Python `ZeroDivisionError`
separately). -/
def div (a b : Q) : Q := mkInt (a.num * b.den) (a.den * b.num)

def qabs (a : Q) : Q := ⟨(a.num.natAbs : ℤ), a.den⟩

def qfloor (a : Q) : ℤ := Int.fdiv a.num a.den

instance : Inhabited Q := ⟨⟨0, 1⟩⟩

instance : Add Q := ⟨add⟩

instance : Sub Q := ⟨sub⟩

instance : Mul Q := ⟨mul⟩

instance : Div Q := ⟨div⟩

instance : Neg Q := ⟨neg⟩

instance (n : Nat) : OfNat Q n := ⟨⟨(n : ℤ), 1⟩⟩

instance : NatCast Q := ⟨fun n => ⟨(n : ℤ), 1⟩⟩

instance : IntCast Q := ⟨fun i => ⟨i, 1⟩⟩

instance : LT Q := ⟨fun a b => a.num * b.den < b.num * a.den⟩

instance : LE Q := ⟨fun a b => a.num * b.den ≤ b.num * a.den⟩

instance (a b : Q) : Decidable (a < b) :=
  inferInstanceAs (Decidable (a.num * b.den < b.num * a.den))

instance (a b : Q) : Decidable (a ≤ b) :=
  inferInstanceAs (Decidable (a.num * b.den ≤ b.num * a.den))

end Q

/-- Sum of a list of exact rationals (Python `sum`). -/
def sumQ (l : List Q) : Q := l.foldr Q.add 0

def pow10 : Nat → Nat
  | 0 => 1
  | k + 1 => 10 * pow10 k

namespace PyStr

/-- Python whitespace for `str.strip()`: space, tab, newline, CR, VT, FF. -/
def isWS (c : Char) : Bool :=
  c = ' ' || c = '\t' || c = '\n' || c = '\x0d' || c = '\x0b' || c = '\x0c'

/-- ASCII decimal digit, the `str.isdigit` test restricted to ASCII. -/
def isDigit (c : Char) : Bool := '0' ≤ c && c ≤ '9'

def isLowerAscii (c : Char) : Bool := 'a' ≤ c && c ≤ 'z'

def isUpperAscii (c : Char) : Bool := 'A' ≤ c && c ≤ 'Z'

/-- ASCII lowercase-to-uppercase table. -/
def upTable : List (Char × Char) :=
  [('a', 'A'),
   ('b', 'B'),
   ('c', 'C'),
   ('d', 'D'),
   ('e', 'E'),
   ('f', 'F'),
   ('g', 'G'),
   ('h', 'H'),
   ('i', 'I'),
   ('j', 'J'),
   ('k', 'K'),
   ('l', 'L'),
   ('m', 'M'),
   ('n', 'N'),
   ('o', 'O'),
   ('p', 'P'),
   ('q', 'Q'),
   ('r', 'R'),
   ('s', 'S'),
   ('t', 'T'),
   ('u', 'U'),
   ('v', 'V'),
   ('w', 'W'),
   ('x', 'X'),
   ('y', 'Y'),
   ('z', 'Z')]

/-- `str.upper` on one character (ASCII table lookup; non-ASCII unchanged,
as for every input treated here). -/
def upChar (c : Char) : Char :=
  ((upTable.find? (fun p => p.1 = c)).map (fun p => p.2)).getD c

/-- ASCII uppercase-to-lowercase table. -/
def lowTable : List (Char × Char) :=
  [('A', 'a'),
   ('B', 'b'),
   ('C', 'c'),
   ('D', 'd'),
   ('E', 'e'),
   ('F', 'f'),
   ('G', 'g'),
   ('H', 'h'),
   ('I', 'i'),
   ('J', 'j'),
   ('K', 'k'),
   ('L', 'l'),
   ('M', 'm'),
   ('N', 'n'),
   ('O', 'o'),
   ('P', 'p'),
   ('Q', 'q'),
   ('R', 'r'),
   ('S', 's'),
   ('T', 't'),
   ('U', 'u'),
   ('V', 'v'),
   ('W', 'w'),
   ('X', 'x'),
   ('Y', 'y'),
   ('Z', 'z')]

/-- `str.lower` on one character (ASCII table lookup; non-ASCII unchanged,
as for every input treated here). -/
def lowChar (c : Char) : Char :=
  ((lowTable.find? (fun p => p.1 = c)).map (fun p => p.2)).getD c

def toUpper (s : Str) : Str := s.map upChar

def toLower (s : Str) : Str := s.map lowChar

def lstripP (p : Char → Bool) : Str → Str
  | [] => []
  | c :: rest => if p c then lstripP p rest else c :: rest

def rstripP (p : Char → Bool) (s : Str) : Str :=
  (lstripP p s.reverse).reverse

/-- Python `str.strip()`. -/
def strip (s : Str) : Str := rstripP isWS (lstripP isWS s)

/-- Python `str.strip(chars)` for a single stripping character. -/
def stripChar (ch : Char) (s : Str) : Str :=
  rstripP (fun c => c = ch) (lstripP (fun c => c = ch) s)

/-- Python `str.split(sep)` for a one-character separator: keeps empty parts. -/
def splitOn (sep : Char) : Str → List Str
  | [] => [[]]
  | c :: rest =>
      let r := splitOn sep rest
      if c = sep then [] :: r
      else match r with
        | [] => [[c]]
        | h :: t => (c :: h) :: t

/-- Does `pat` occur at the start of `s`? -/
def startsWith : Str → Str → Bool
  | _, [] => true
  | [], _ :: _ => false
  | c :: s, p :: ps => c = p && startsWith s ps

/-- Python `pat in s` substring test. -/
def containsSub (s pat : Str) : Bool :=
  match s with
  | [] => startsWith [] pat
  | _ :: rest => startsWith s pat || containsSub rest pat

/-- Python `s.replace(old, "")` for a one-character `old`. -/
def removeChar (ch : Char) (s : Str) : Str := s.filter (fun c => c ≠ ch)

/-- Python `s.replace(old, new)` for one-character `old` and `new`. -/
def replaceChar (old new : Char) (s : Str) : Str :=
  s.map (fun c => if c = old then new else c)

/-- Python `s.replace(old, new)` for a multi-character pattern: leftmost,
non-overlapping occurrences, scanning left to right.  Fuelled recursion,
`fuel ≥ s.length` suffices. -/
def replaceSubAux (pat new : Str) : Nat → Str → Str
  | _, [] => []
  | 0, s => s
  | fuel + 1, c :: rest =>
      if pat ≠ [] && startsWith (c :: rest) pat then
        new ++ replaceSubAux pat new fuel (List.drop (pat.length - 1) rest)
      else
        c :: replaceSubAux pat new fuel rest

def replaceSub (pat new s : Str) : Str := replaceSubAux pat new s.length s

def natOfDigits (s : Str) : Nat :=
  s.foldl (fun acc c => acc * 10 + (c.toNat - '0'.toNat)) 0

/-- Render a natural number in decimal. -/
def renderNat (n : Nat) : Str := (Nat.toDigits 10 n).map id

/-- Zero-pad a decimal rendering on the left to width `w` (Python `zfill`). -/
def zfill (w : Nat) (s : Str) : Str :=
  if s.length < w then List.replicate (w - s.length) '0' ++ s else s

def pad2 (n : Nat) : Str := zfill 2 (renderNat n)

/-- Parse `[+|-]? digits [. digits]?` (at least one digit somewhere) into an
exact rational, the behaviour of Python `float` on the numeric strings the
parsers feed it.  Returns `none` when the shape is wrong (ValueError). -/
def parseQ (s : Str) : Option Q :=
  let core := fun (t : Str) (sign : Q) =>
    let intPart := t.takeWhile isDigit
    let rest := t.dropWhile isDigit
    match rest with
    | [] => if intPart = [] then none
            else some (sign * (natOfDigits intPart : Q))
    | '.' :: frac =>
        if frac.all isDigit && (intPart ≠ [] || frac ≠ []) then
          some (sign * ((natOfDigits intPart : Q) +
            (natOfDigits frac : Q) / (pow10 frac.length : Q)))
        else none
    | _ => none
  match s with
  | '-' :: t => core t (-1)
  | '+' :: t => core t 1
  | t => core t 1

/-- Banker's rounding of a rational to the nearest integer (ties to even),
the behaviour of Python `round` on exactly-representable values. -/
def roundHalfEven (q : Q) : ℤ :=
  let f := Q.qfloor q
  let r := q - (f : Q)
  if r < 1/2 then f
  else if r > 1/2 then f + 1
  else if f % 2 = 0 then f else f + 1

/-- Python `round(x, 2)` on exactly-representable two-decimal values. -/
def round2 (q : Q) : Q := (roundHalfEven (q * 100) : Q) / 100

/-- Render a non-negative rational whose denominator divides `10^k` with
exactly `k` fractional digits. -/
def renderFixed (k : Nat) (q : Q) : Str :=
  let scaled := (q * (pow10 k : Q))
  let n := scaled.num.toNat
  let digits := zfill (k + 1) (renderNat n)
  let ip := digits.take (digits.length - k)
  let fp := digits.drop (digits.length - k)
  if k = 0 then ip else ip ++ '.' :: fp

/-- Python `f"{x:.2f}"`: round to two decimals (half-to-even on exact input)
and render with a sign. -/
def format2f (q : Q) : Str :=
  let r := (roundHalfEven (q * 100) : Q) / 100
  if r < 0 then '-' :: renderFixed 2 (-r) else renderFixed 2 r

/-- Insert thousands separators into an integer-part digit string (fuelled
recursion, `fuel ≥ s.length` suffices). -/
def groupThousandsAux : Nat → Str → Str
  | 0, ds => ds
  | fuel + 1, ds =>
      if ds.length ≤ 3 then ds
      else groupThousandsAux fuel (ds.take (ds.length - 3)) ++
        ',' :: ds.drop (ds.length - 3)

def groupThousands (s : Str) : Str := groupThousandsAux s.length s

/-- Python `f"{x:,.2f}"` for the non-negative amounts the sources format. -/
def formatComma2f (q : Q) : Str :=
  let r := (roundHalfEven (q * 100) : Q) / 100
  let body := renderFixed 2 (if r < 0 then -r else r)
  let ip := body.takeWhile (fun c => c ≠ '.')
  let fp := body.dropWhile (fun c => c ≠ '.')
  (if r < 0 then ['-'] else []) ++ groupThousands ip ++ fp

/-- Render a decimal rational the way Python `str` renders a float whose
value has a terminating decimal expansion: minimal fractional digits, at
least one (`str(300.0) = "300.0"`).  For non-terminating values (never
produced by the inputs treated in this development) a fraction rendering is
used as a total fallback. -/
def renderPyFloat (q : Q) : Str :=
  let sign : Str := if q < 0 then ['-'] else []
  let a := if q < 0 then -q else q
  match (List.range 18).find? (fun k => (a * (pow10 k : Q)).den = 1) with
  | some k =>
      if k = 0 then sign ++ renderNat a.num.toNat ++ ['.', '0']
      else sign ++ renderFixed k a
  | none => sign ++ renderNat a.num.toNat ++ '/' :: renderNat a.den

/-- Python `str` of an `int` result. -/
def renderPyInt (z : ℤ) : Str :=
  if z < 0 then '-' :: renderNat (-z).toNat else renderNat z.toNat

end PyStr

open PyStr

/-!
## Embedding of `bank_table_parser_v3.py`

`parse_bank_table_to_json` walks the lines of the VLM table output, skips
non-table lines, extracts date / description / reference / amount / balance
from the pipe-separated cells and uses the balance delta against the previous
row to decide debit vs credit (keyword fallback otherwise).
-/

namespace TableV3

/-- A parsed transaction dict of `parse_bank_table_to_json`. -/
structure Txn where
  date : Str
  description : Str
  reference : Str
  debit : Q
  credit : Q
  balance : Q
  deriving Repr, DecidableEq

/-- The result dict of `parse_bank_table_to_json`. -/
structure TableResult where
  account_number : Str
  statement_period : Str
  opening_balance : Q
  closing_balance : Q
  transaction_count : Nat
  total_debits : Q
  total_credits : Q
  transactions : List Txn
  deriving Repr, DecidableEq

/-- The full match `re.match(r'^-?\d+[\d,]*\.?\d*$', t)` evaluated on a
comma-free string `t` (the source applies it to `parts[j].replace(',', '')`,
so the `[\d,]*` block can only ever match digits). -/
def numShape (allowNeg : Bool) (t : Str) : Bool :=
  let core := fun (u : Str) =>
    let ds := u.takeWhile isDigit
    let rest := u.dropWhile isDigit
    ds ≠ [] &&
      (match rest with
       | [] => true
       | '.' :: frac => frac.all isDigit
       | _ => false)
  match t with
  | '-' :: u => allowNeg && core u
  | u => core u

/-- Line-skip test of the source:
`if not '|' in line or '---' in line or 'Date' in line.upper(): continue`. -/
def skipLine (line : Str) : Bool :=
  !(line.contains '|') || containsSub line ['-', '-', '-'] ||
    containsSub (toUpper line) ['D', 'a', 't', 'e']

/-- Balance search: last `j` in `len-1 .. 2` whose cell is non-empty and
matches the (sign-allowing) numeric shape after comma removal. -/
def balanceScan (parts : List Str) : List Nat → Str
  | [] => []
  | j :: js =>
      let cell := parts.getD j []
      if cell ≠ [] && numShape true (removeChar ',' cell) then cell
      else balanceScan parts js

def findBalanceStr (parts : List Str) : Str :=
  balanceScan parts (((List.range (parts.length)).drop 2).reverse)

/-- Amount search over `j = 2 .. len-2`: first non-empty cell matching the
unsigned numeric shape, where `j = 2` is skipped as a reference number when
it has at least four characters and no decimal point. -/
def amountScan (parts : List Str) : List Nat → Str
  | [] => []
  | j :: js =>
      let cell := parts.getD j []
      if cell ≠ [] && numShape false (removeChar ',' cell) then
        if j = 2 && cell.length ≥ 4 && !(cell.contains '.') then
          amountScan parts js
        else cell
      else amountScan parts js

def findAmountStr (parts : List Str) : Str :=
  amountScan parts ((List.range (parts.length - 1)).drop 2)

/-- Credit keywords of the fallback branch. -/
def creditKeywords : List Str :=
  [ "deposit".toList, "refund".toList, "transfer - from".toList,
    "from savings".toList, "income".toList, "payroll".toList ]

/-- The SMART DETECTION block (source lines 99–123): balance delta first,
description keywords as fallback.  Returns `(debit, credit)`. -/
def smartDetect (amount prev_balance balance : Q) (description : Str) :
    Q × Q :=
  let balance_change := balance - prev_balance
  if amount > 0 then
    if Q.qabs (balance_change - amount) < 1/100 then (0, amount)
    else if Q.qabs (balance_change + amount) < 1/100 then (amount, 0)
    else
      let desc_lower := toLower description
      if creditKeywords.any (fun kw => containsSub desc_lower kw) then
        (0, amount)
      else (amount, 0)
  else (0, 0)

/-- Loop body of `parse_bank_table_to_json` for one line, given the
transactions accumulated so far. -/
def processLine (acc : List Txn) (line : Str) : List Txn :=
  if skipLine line then acc else
  let parts0 := (splitOn '|' line).map strip
  let parts1 := match parts0 with
    | [] :: rest => rest
    | other => other
  let parts := if parts1 ≠ [] && parts1.getLast! = [] then
      parts1.dropLast else parts1
  if parts.length < 5 then acc else
  let date_str := parts.getD 0 []
  let description := parts.getD 1 []
  if !(date_str.any isDigit) then acc else
  let balance_str := findBalanceStr parts
  if balance_str = [] then acc else
  let amount_str := findAmountStr parts
  let ref := if parts.length > 2 then
      (if !(numShape false (removeChar ',' (parts.getD 2 []))) then
        parts.getD 2 [] else [])
    else []
  let amount := if amount_str ≠ [] then
      (parseQ (removeChar ',' amount_str)).getD 0 else 0
  let balance := (parseQ (removeChar ')' (replaceChar '(' '-'
      (removeChar ',' balance_str)))).getD 0
  match acc.getLast? with
  | some lastT =>
      let (debit, credit) := smartDetect amount lastT.balance balance description
      acc ++ [⟨date_str, description, ref, round2 debit, round2 credit,
        round2 balance⟩]
  | none =>
      if containsSub (toLower description) "previous balance".toList then
        acc ++ [⟨date_str, description, ref, 0, 0, balance⟩]
      else
        let (debit, credit) := smartDetect amount 0 balance description
        acc ++ [⟨date_str, description, ref, round2 debit, round2 credit,
          round2 balance⟩]

/-- `parse_bank_table_to_json(table_text)`. -/
def parse_bank_table_to_json (table_text : Str) : TableResult :=
  let lines := splitOn '\n' (strip table_text)
  let transactions := lines.foldl processLine []
  let total_debits := sumQ (transactions.map (·.debit))
  let total_credits := sumQ (transactions.map (·.credit))
  { account_number := "****".toList
    statement_period := []
    opening_balance := match transactions.head? with
      | some t => t.balance | none => 0
    closing_balance := match transactions.getLast? with
      | some t => t.balance | none => 0
    transaction_count := transactions.length
    total_debits := round2 total_debits
    total_credits := round2 total_credits
    transactions := transactions }

end TableV3

/-!
## Embedding of `bank_parser_v3.py`

`BankTransaction` / `BankStatement` are pydantic models whose validators
normalise dates, take absolute values of amounts and auto-categorise; the
`BankStatementParser.parse_table_format_v3` method and its two line parsers
are embedded below.  Characters `{` / `}` are written via `Char.ofNat` to
keep string literals plain.
-/

def lbrace : Char := Char.ofNat 123

def rbrace : Char := Char.ofNat 125

namespace ParserV3

/-- Date-component role inside one `strptime` format string. -/
inductive DRole | M | D | Y4 | Y2
  deriving Repr, DecidableEq

open DRole

/-- The eight accepted formats of `validate_date`, in source order:
`%m/%d/%Y, %d/%m/%Y, %Y-%m-%d, %m-%d-%Y, %d-%m-%Y, %Y/%m/%d, %m/%d/%y,
%d/%m/%y`.  Each is a separator character plus the roles of its three
components. -/
def dateFormats : List (Char × DRole × DRole × DRole) :=
  [ ('/', M, D, Y4), ('/', D, M, Y4), ('-', Y4, M, D), ('-', M, D, Y4),
    ('-', D, M, Y4), ('/', Y4, M, D), ('/', M, D, Y2), ('/', D, M, Y2) ]

/-- ASCII digit-value table. -/
def digitTable : List (Char × Nat) :=
  [('0', 0),
   ('1', 1),
   ('2', 2),
   ('3', 3),
   ('4', 4),
   ('5', 5),
   ('6', 6),
   ('7', 7),
   ('8', 8),
   ('9', 9)]

/-- Value of an ASCII digit character. -/
def digitVal (c : Char) : Option Nat :=
  (digitTable.find? (fun p => p.1 = c)).map (fun p => p.2)

/-- CPython `_strptime` component for `%m`: full match of
`1[0-2]|0[1-9]|[1-9]`. -/
def monthComp : Str → Option Nat
  | [c] =>
      (match digitVal c with
       | some k => if 1 ≤ k then some k else none
       | none => none)
  | [c1, c2] =>
      (match digitVal c1, digitVal c2 with
       | some k1, some k2 =>
           if (k1 = 1 && k2 ≤ 2) || (k1 = 0 && 1 ≤ k2) then
             some (10 * k1 + k2)
           else none
       | _, _ => none)
  | _ => none

/-- CPython `_strptime` component for `%d`: full match of
`3[01]|[12]\d|0[1-9]|[1-9]`. -/
def dayComp : Str → Option Nat
  | [c] =>
      (match digitVal c with
       | some k => if 1 ≤ k then some k else none
       | none => none)
  | [c1, c2] =>
      (match digitVal c1, digitVal c2 with
       | some k1, some k2 =>
           if (k1 = 3 && k2 ≤ 1) || (k1 = 1 || k1 = 2) ||
              (k1 = 0 && 1 ≤ k2) then
             some (10 * k1 + k2)
           else none
       | _, _ => none)
  | _ => none

/-- CPython `_strptime` component for `%Y`: exactly four digits. -/
def year4Comp : Str → Option Nat
  | [c1, c2, c3, c4] =>
      (match digitVal c1, digitVal c2, digitVal c3, digitVal c4 with
       | some k1, some k2, some k3, some k4 =>
           some (((k1 * 10 + k2) * 10 + k3) * 10 + k4)
       | _, _, _, _ => none)
  | _ => none

/-- CPython `_strptime` component for `%y`: exactly two digits, with the
century rule 0–68 → 2000s, 69–99 → 1900s. -/
def year2Comp : Str → Option Nat
  | [c1, c2] =>
      (match digitVal c1, digitVal c2 with
       | some k1, some k2 =>
           let y := k1 * 10 + k2
           some (if y ≤ 68 then 2000 + y else 1900 + y)
       | _, _ => none)
  | _ => none

def parseRole : DRole → Str → Option Nat
  | M => monthComp
  | D => dayComp
  | Y4 => year4Comp
  | Y2 => year2Comp

def isLeapYear (y : Nat) : Bool :=
  y % 4 = 0 && (y % 100 ≠ 0 || y % 400 = 0)

def daysInMonth (y m : Nat) : Nat :=
  if m = 2 then (if isLeapYear y then 29 else 28)
  else if m = 4 || m = 6 || m = 9 || m = 11 then 30
  else 31

/-- Assemble the three matched components into `(year, month, day)`
according to their roles (the role triples of the eight accepted
formats). -/
def selectYMD : DRole → DRole → DRole → Nat → Nat → Nat →
    Option (Nat × Nat × Nat)
  | M, D, Y4, v1, v2, v3 => some (v3, v1, v2)
  | M, D, Y2, v1, v2, v3 => some (v3, v1, v2)
  | D, M, Y4, v1, v2, v3 => some (v3, v2, v1)
  | D, M, Y2, v1, v2, v3 => some (v3, v2, v1)
  | Y4, M, D, v1, v2, v3 => some (v1, v2, v3)
  | Y2, M, D, v1, v2, v3 => some (v1, v2, v3)
  | _, _, _, _, _, _ => none

/-- `datetime.strptime(v.strip(), fmt)` for one of the eight formats: split
on the single separator, match the three components by role, then the
`datetime` constructor's range check.  Result `(year, month, day)`. -/
def tryComps (r1 r2 r3 : DRole) : List Str → Option (Nat × Nat × Nat)
  | [a, b, c] =>
      (match parseRole r1 a, parseRole r2 b, parseRole r3 c with
       | some v1, some v2, some v3 =>
           (match selectYMD r1 r2 r3 v1 v2 v3 with
            | some (y, mo, dy) =>
                if 1 ≤ y && y ≤ 9999 && dy ≤ daysInMonth y mo then
                  some (y, mo, dy)
                else none
            | none => none)
       | _, _, _ => none)
  | _ => none

def tryFormat (fmt : Char × DRole × DRole × DRole) (v : Str) :
    Option (Nat × Nat × Nat) :=
  match fmt with
  | (sep, r1, r2, r3) => tryComps r1 r2 r3 (splitOn sep (strip v))

/-- `parsed_date.strftime("%m/%d/%Y")`: zero-padded month and day, the year
as glibc renders it (no padding for the four-digit-year inputs treated
here). -/
def renderDate (y m d : Nat) : Str :=
  pad2 m ++ '/' :: pad2 d ++ '/' :: renderNat y

/-- The format-trying loop of `validate_date`. -/
def tryFormatsLoop (v : Str) : List (Char × DRole × DRole × DRole) → Str
  | [] => v
  | f :: fs =>
      match tryFormat f v with
      | some (y, m, d) => renderDate y m d
      | none => tryFormatsLoop v fs

/-- The `validate_date` pydantic validator: try the accepted formats in
order, return the canonical rendering of the first success, or the raw
string unchanged. -/
def validate_date (v : Str) : Str :=
  if v = [] then [] else tryFormatsLoop v dateFormats

/-- Category table of `auto_categorize`, in dict insertion order. -/
def categoryTable : List (Str × List Str) :=
  [ ("Groceries".toList, ["grocery".toList, "food".toList, "market".toList,
      "supermarket".toList, "walmart".toList, "kroger".toList,
      "safeway".toList]),
    ("Transportation".toList, ["gas station".toList, "fuel".toList,
      "petrol".toList, "uber".toList, "lyft".toList, "taxi".toList,
      "parking".toList, "shell".toList, "chevron".toList, "exxon".toList]),
    ("Dining".toList, ["restaurant".toList, "cafe".toList, "coffee".toList,
      "dining".toList, "pizza".toList, "food".toList, "mcdonald".toList,
      "starbucks".toList]),
    ("Shopping".toList, ["amazon".toList, "online".toList, "ebay".toList,
      "store".toList, "purchase".toList, "shop".toList,
      "electronics".toList]),
    ("Utilities".toList, ["utility".toList, "electric".toList,
      "water bill".toList, "gas bill".toList, "internet".toList,
      "phone".toList, "bill payment".toList]),
    ("Housing".toList, ["rent".toList, "mortgage".toList, "lease".toList,
      "housing".toList]),
    ("Income".toList, ["salary".toList, "payroll".toList, "wage".toList,
      "deposit".toList, "direct deposit".toList, "income".toList]),
    ("Transfer".toList, ["transfer".toList, "payment".toList,
      "zelle".toList, "venmo".toList, "savings".toList]),
    ("Healthcare".toList, ["pharmacy".toList, "doctor".toList,
      "medical".toList, "hospital".toList, "cvs".toList,
      "walgreens".toList]),
    ("Entertainment".toList, ["movie".toList, "netflix".toList,
      "spotify".toList, "game".toList, "subscription".toList]),
    ("Banking".toList, ["service fee".toList, "bank fee".toList,
      "overdraft".toList, "interest".toList, "atm fee".toList,
      "fees".toList]),
    ("Cash".toList, ["atm withdrawal".toList, "cash withdrawal".toList,
      "atm".toList]),
    ("Bills".toList, ["bill payment".toList, "mastercard".toList,
      "visa".toList, "amex".toList, "credit card".toList]) ]

/-- The `auto_categorize` pydantic validator when no category was supplied.
The source's income pre-check reads `values.get('credit', 0)`, but pydantic
v1 validates `category` before `debit`/`credit` (field order), so that
check never fires; only the keyword table decides. -/
def categoryLoop (desc : Str) : List (Str × List Str) → Str
  | [] => "Other".toList
  | (cat, kws) :: rest =>
      if kws.any (fun kw => containsSub desc kw) then cat
      else categoryLoop desc rest

def auto_categorize (description : Str) : Str :=
  categoryLoop (toLower description) categoryTable

/-- A `BankTransaction` after pydantic validation. -/
structure BankTransaction where
  date : Str
  description : Str
  category : Str
  debit : Q
  credit : Q
  balance : Q
  deriving Repr, DecidableEq

/-- `BankTransaction(date=…, description=…, debit=…, credit=…, balance=…)`
with no category supplied: the validators normalise the date, take absolute
values of the amounts and auto-categorise. -/
def mkTxn (date description : Str) (debit credit balance : Q) :
    BankTransaction :=
  { date := validate_date date
    description := description
    category := auto_categorize description
    debit := Q.qabs debit
    credit := Q.qabs credit
    balance := Q.qabs balance }

/-- A `BankStatement` after pydantic validation. -/
structure BankStatement where
  account_number : Str := []
  statement_period : Str := []
  transactions : List BankTransaction
  total_debits : Q := 0
  total_credits : Q := 0
  opening_balance : Q := 0
  closing_balance : Q := 0
  deriving Repr, DecidableEq

/-- `BankStatement.calculate_totals`. -/
def calculate_totals (s : BankStatement) : BankStatement :=
  { s with
    total_debits := sumQ (s.transactions.map (·.debit))
    total_credits := sumQ (s.transactions.map (·.credit)) }

/-- A CSV field, quoted as the `csv` module quotes it. -/
def csvField (s : Str) : Str :=
  if s.any (fun c => c = ',' || c = '"' || c = '\n' || c = '\x0d') then
    '"' :: (s.flatMap (fun c => if c = '"' then ['"', '"'] else [c])) ++ ['"']
  else s

def csvRow (fields : List Str) : Str :=
  (List.intersperse [','] (fields.map csvField)).flatten ++ ['\x0d', '\n']

/-- `BankStatement.to_csv`. -/
def to_csv (s : BankStatement) : Str :=
  csvRow ["Date".toList, "Description".toList, "Category".toList,
    "Debit".toList, "Credit".toList, "Balance".toList] ++
  (s.transactions.map (fun t =>
    csvRow [t.date, t.description, t.category,
      (if t.debit > 0 then format2f t.debit else []),
      (if t.credit > 0 then format2f t.credit else []),
      (if t.balance > 0 then format2f t.balance else [])])).flatten ++
  csvRow [] ++
  csvRow ["Summary".toList, [], [], [], [], []] ++
  csvRow ["Total Debits".toList, [], [], format2f s.total_debits, [], []] ++
  csvRow ["Total Credits".toList, [], [], [], format2f s.total_credits, []] ++
  (if s.opening_balance ≠ 0 then
    csvRow ["Opening Balance".toList, [], [], [], [],
      format2f s.opening_balance] else []) ++
  (if s.closing_balance ≠ 0 then
    csvRow ["Closing Balance".toList, [], [], [], [],
      format2f s.closing_balance] else [])

def sepOk (c : Char) : Bool := c = '/' || c = '-'

def digitsRun (s : Str) : Nat := (s.takeWhile isDigit).length

/-- Match of `\d{1,2}[/\-]\d{1,2}[/\-]\d{2,4}` anchored at the start of
`s` (regex greediness with backtracking collapses to run-length checks,
since a shorter first group would put a digit where the separator must
be).  Returns the match length. -/
def matchDateFrom (s : Str) : Option Nat :=
  let r1 := digitsRun s
  if 1 ≤ r1 && r1 ≤ 2 && sepOk ((s.drop r1).headD ' ') then
    let s2 := s.drop (r1 + 1)
    let r2 := digitsRun s2
    if 1 ≤ r2 && r2 ≤ 2 && sepOk ((s2.drop r2).headD ' ') then
      let r3 := digitsRun (s2.drop (r2 + 1))
      if 2 ≤ r3 then some (r1 + 1 + r2 + 1 + min r3 4) else none
    else none
  else none

/-- `re.search` for the date pattern: leftmost match, returning
`(start, length)`. -/
def dateSearchAux : Str → Nat → Option (Nat × Nat)
  | [], _ => none
  | s@(_ :: rest), i =>
      match matchDateFrom s with
      | some len => some (i, len)
      | none => dateSearchAux rest (i + 1)

def dateSearch (s : Str) : Option (Nat × Nat) := dateSearchAux s 0

/-- Match of `[-+]?\$?[\d,]+\.?\d*` anchored at the start of `s`,
returning the match length. -/
def matchNumFrom (s : Str) : Option Nat :=
  let core := fun (t : Str) =>
    let r := (t.takeWhile (fun c => isDigit c || c = ',')).length
    if r = 0 then none
    else
      let t2 := t.drop r
      if t2.headD ' ' = '.' then some (r + 1 + digitsRun (t2.drop 1))
      else some r
  let dollarCore := fun (t : Str) =>
    if t.headD ' ' = '$' then (core (t.drop 1)).map (· + 1) else core t
  match s with
  | c :: rest =>
      if c = '-' || c = '+' then (dollarCore rest).map (· + 1)
      else dollarCore s
  | [] => none

/-- `re.finditer` for the amount pattern: leftmost, non-overlapping
matches, each as `(start, matched text)`.  Fuelled scan, `fuel ≥ s.length`
suffices. -/
def findNumsAux : Nat → Str → Nat → List (Nat × Str)
  | 0, _, _ => []
  | fuel + 1, s, i =>
      match s with
      | [] => []
      | _ :: rest =>
          match matchNumFrom s with
          | some len => (i, s.take len) :: findNumsAux fuel (s.drop len) (i + len)
          | none => findNumsAux fuel rest (i + 1)

def findNums (s : Str) : List (Nat × Str) := findNumsAux s.length s 0

/-- `BankStatementParser._parse_space_delimited_line`. -/
def parse_space_delimited_line (line : Str) : Option BankTransaction :=
  match dateSearch line with
  | none => none
  | some (start, len) =>
      let dateStr := (line.drop start).take len
      let remaining := strip (line.drop (start + len))
      let numMatches := findNums remaining
      let desc0 := match numMatches with
        | [] => []
        | (i, _) :: _ => strip (remaining.take i)
      let amounts := numMatches.filterMap
        (fun m => parseQ (removeChar ',' (removeChar '$' m.2)))
      let desc_lower := toLower desc0
      let (debit, credit, balance) : Q × Q × Q :=
        match amounts with
        | [] => (0, 0, 0)
        | [a] => (0, 0, Q.qabs a)
        | [a, b] =>
            if ["deposit".toList, "salary".toList, "income".toList,
                "payroll".toList].any (fun kw => containsSub desc_lower kw)
            then (0, Q.qabs a, Q.qabs b)
            else (Q.qabs a, 0, Q.qabs b)
        | a :: b :: rest =>
            ((if a ≠ 0 then Q.qabs a else 0),
             (if b ≠ 0 then Q.qabs b else 0),
             (let l := (a :: b :: rest).getLast!
              if l ≠ 0 then Q.qabs l else 0))
      let desc1 := strip (stripChar '|' desc0)
      if desc1 ≠ [] then some (mkTxn dateStr desc1 debit credit balance)
      else none

/-- Column mapping produced by `_analyze_header` (a Python dict
field-name → column index). -/
structure ColumnMap where
  date : Option Nat := none
  description : Option Nat := none
  debit : Option Nat := none
  credit : Option Nat := none
  balance : Option Nat := none
  ref : Option Nat := none
  deriving Repr, DecidableEq

def ColumnMap.isEmpty (m : ColumnMap) : Bool :=
  m.date = none && m.description = none && m.debit = none &&
    m.credit = none && m.balance = none && m.ref = none

/-- `BankStatementParser._analyze_header`. -/
def analyze_header (header : Str) : ColumnMap :=
  if header.contains '|' then
    let parts := (splitOn '|' header).map strip
    (List.range parts.length).foldl
      (fun m i =>
        let pl := toLower (parts.getD i [])
        if containsSub pl "date".toList then { m with date := some i }
        else if containsSub pl "description".toList ||
          containsSub pl "transaction".toList then
          { m with description := some i }
        else if containsSub pl "debit".toList ||
          containsSub pl "withdrawal".toList then { m with debit := some i }
        else if containsSub pl "credit".toList ||
          containsSub pl "deposit".toList then { m with credit := some i }
        else if containsSub pl "balance".toList then
          { m with balance := some i }
        else if containsSub pl "ref".toList then { m with ref := some i }
        else m)
      {}
  else {}

/-- Numeric-cell cleaning of `_parse_pipe_delimited_line`:
`re.sub(r'[^\d.,\-]', '', value)` then `float` after comma removal, absolute
value on success, `0` kept on failure. -/
def pipeCellAmount (value : Str) : Q :=
  let num_str := value.filter (fun c => isDigit c || c = '.' || c = ',' || c = '-')
  if num_str ≠ [] && num_str ≠ ['-'] then
    match parseQ (removeChar ',' num_str) with
    | some q => Q.qabs q
    | none => 0
  else 0

/-- `BankStatementParser._parse_pipe_delimited_line`. -/
def parse_pipe_delimited_line (line : Str) (column_map : Option ColumnMap) :
    Option BankTransaction :=
  let parts := (splitOn '|' line).map strip
  match column_map with
  | none => none
  | some m =>
      if m.isEmpty || parts.length < 3 then none else
      let cell := fun (oi : Option Nat) =>
        match oi with
        | some i => if i < parts.length then some (parts.getD i []) else none
        | none => none
      let date := (cell m.date).getD []
      let description := (cell m.description).getD []
      let debit := match cell m.debit with
        | some v => pipeCellAmount v | none => 0
      let credit := match cell m.credit with
        | some v => pipeCellAmount v | none => 0
      let balance := match cell m.balance with
        | some v => pipeCellAmount v | none => 0
      if date ≠ [] && description ≠ [] then
        let desc_lower := toLower description
        let (debit, credit) :=
          if (containsSub desc_lower "deposit".toList ||
              containsSub desc_lower "payroll".toList) &&
             debit > 0 && credit = 0 then (0, debit)
          else (debit, credit)
        some (mkTxn date description debit credit balance)
      else none

/-- Header-line detection of `parse_table_format_v3`. -/
def isHeaderLine (line : Str) : Bool :=
  let l := toLower line
  containsSub l "date".toList &&
    (containsSub l "description".toList ||
      containsSub l "transaction".toList) &&
    (containsSub l "debit".toList || containsSub l "withdrawal".toList ||
      containsSub l "deposits".toList)

/-- `BankStatementParser.parse_table_format_v3`. -/
def parse_table_format_v3 (text : Str) : BankStatement :=
  let lines := splitOn '\n' text
  let headerIdx := (List.range lines.length).find?
    (fun i => isHeaderLine (lines.getD i []))
  let column_map := headerIdx.map (fun i => analyze_header (lines.getD i []))
  let hIdx : ℤ := match headerIdx with
    | some i => (i : ℤ) | none => -1
  let transactions := (List.range lines.length).foldl
    (fun (acc : List BankTransaction) (i : Nat) =>
      if (i : ℤ) ≤ hIdx + 1 then acc else
      let line := strip (lines.getD i [])
      if line = [] || line.headD ' ' = '-' || line.headD ' ' = '=' then acc
      else
        match dateSearch line with
        | none => acc
        | some _ =>
            let trans := if line.contains '|' then
                parse_pipe_delimited_line line column_map
              else parse_space_delimited_line line
            match trans with
            | some t =>
                if t.description ≠ [] &&
                   !(containsSub (toLower t.description) "balance".toList)
                then acc ++ [t] else acc
            | none => acc)
    []
  { transactions := transactions }

/-- `BankStatementParser.parse`, modelled for inputs on which both the
direct `PydanticOutputParser` parse and the `re.search(r'\x7b.*\x7d')`
JSON extraction fail (any input containing no JSON object, e.g. the plain
table text handled by every theorem below): the v3 table-format path,
with totals on success and the empty statement otherwise. -/
def parse (ai_response : Str) : BankStatement :=
  let s := parse_table_format_v3 ai_response
  if s.transactions ≠ [] then calculate_totals s
  else { transactions := [] }

/-- `parse_bank_statement_to_csv`. -/
def parse_bank_statement_to_csv (ai_response : Str) :
    BankStatement × Str :=
  let s := parse ai_response
  (s, to_csv s)

end ParserV3

/-!
## Embedding of `services/vlm/unified_bank_extractor.py`

`UnifiedBankExtractor.extract_and_validate` parses through the v3 parser,
validates running balances, applies `_fix_common_issues` when mismatches
were found, and dispatches on the requested output format.  The Python
function body raises no exception for any input (every fallible step is
internally guarded), so the `except` fallback branch is unreachable and the
embedding is the `try` body; an unknown output format falls off the end of
the function, i.e. returns `None`.
-/

namespace Unified

open ParserV3

/-- `UnifiedBankExtractor._validate_balances`: one formatted message per
adjacent pair whose running-balance identity is off by more than 0.01. -/
def balanceErrors (prev : BankTransaction) :
    List BankTransaction → List Str
  | [] => []
  | curr :: rest =>
      let expected := prev.balance + curr.credit - curr.debit
      (if Q.qabs (expected - curr.balance) > 1/100 then
        ["Balance mismatch at ".toList ++ curr.date ++
          ": expected ".toList ++ format2f expected ++
          ", got ".toList ++ format2f curr.balance]
      else []) ++ balanceErrors curr rest

def validate_balances : List BankTransaction → List Str
  | [] => []
  | t :: rest => balanceErrors t rest

/-- Swap-indicator count of `_fix_common_issues`: "direct credit" rows with
a debit, plus "transfer to" rows with a credit. -/
def swapIndicators (ts : List BankTransaction) : Nat :=
  ts.foldl
    (fun n t =>
      n +
      (if containsSub (toLower t.description) "direct credit".toList &&
          t.debit > 0 then 1 else 0) +
      (if containsSub (toLower t.description) "transfer to".toList &&
          t.credit > 0 then 1 else 0))
    0

/-- The balance-recomputation loop of `_fix_common_issues`: running balance
from the opening balance forward. -/
def recomputeBalances (run : Q) : List BankTransaction → List BankTransaction
  | [] => []
  | t :: rest =>
      let rb := run + t.credit - t.debit
      { t with balance := rb } :: recomputeBalances rb rest

/-- `UnifiedBankExtractor._fix_common_issues` (the `errors` argument is
received but never read by the body). -/
def fix_common_issues (s : BankStatement) (errors : List Str) :
    BankStatement :=
  let _ := errors
  let ts := s.transactions
  let swapped :=
    if (swapIndicators ts : Q) > (ts.length : Q) * (3/10) then
      ts.map (fun t => { t with debit := t.credit, credit := t.debit })
    else ts
  let ts2 := if swapped ≠ [] then recomputeBalances s.opening_balance swapped
    else swapped
  { s with transactions := ts2 }

/-- `UnifiedBankExtractor._json_to_table`. -/
def json_to_table (s : BankStatement) : Str :=
  let rows := s.transactions.map (fun t =>
    "| ".toList ++ t.date ++ " | ".toList ++ t.description ++
      " | ".toList ++
      (if t.debit > 0 then formatComma2f t.debit else []) ++
      " | ".toList ++
      (if t.credit > 0 then formatComma2f t.credit else []) ++
      " | ".toList ++ formatComma2f t.balance ++ " |".toList)
  (List.intersperse ['\n']
    ("| Date | Description | Debit | Credit | Balance |".toList ::
     "|------|-------------|-------|--------|---------|".toList ::
     rows)).flatten

/-- Result dict of `extract_and_validate`, one constructor per
`output_format` branch. -/
inductive ExtractResult where
  | jsonR (data : BankStatement) (transaction_count : Nat)
      (validation_errors : List Str) (confidence : Q)
  | csvR (data : Str) (transaction_count : Nat)
  | tableR (data : Str) (transaction_count : Nat)
  deriving Repr, DecidableEq

/-- `UnifiedBankExtractor.extract_and_validate`. -/
def extract_and_validate (vlm_response : Str) (output_format : Str) :
    Option ExtractResult :=
  let pair := parse_bank_statement_to_csv vlm_response
  let bank_statement := pair.1
  let csv_content := pair.2
  let validation_errors := validate_balances bank_statement.transactions
  let bs := if validation_errors ≠ [] then
      fix_common_issues bank_statement validation_errors
    else bank_statement
  if output_format = "json".toList then
    some (.jsonR bs bs.transactions.length validation_errors
      (if validation_errors = [] then 19/20 else 4/5))
  else if output_format = "csv".toList then
    some (.csvR csv_content bs.transactions.length)
  else if output_format = "table".toList then
    some (.tableR (json_to_table bs) bs.transactions.length)
  else none

end Unified

/-!
## Embedding of `services/vlm/langchain_extractor.py`

The pydantic models of this module keep `debit`/`credit` as `Optional`
(`None` when absent), `_fix_transaction_classifications` repairs
keyword-contradicted classifications, and `_manual_json_parse` attempts a
best-effort recovery of malformed JSON: markdown fences stripped, the
`\x7b.*\x7d` region extracted, trailing commas removed, arithmetic in the
totals fields evaluated, then `json.loads` plus model construction, with an
empty statement (never an exception, never a table parse) on failure.
-/

namespace LCE

structure LCTransaction where
  date : Str
  description : Str
  category : Option Str
  debit : Option Q
  credit : Option Q
  balance : Q
  deriving Repr, DecidableEq

structure LCStatement where
  bank_name : Option Str := none
  account_number : Option Str := none
  statement_period : Option Str := none
  transactions : List LCTransaction
  total_debits : Option Q := none
  total_credits : Option Q := none
  deriving Repr, DecidableEq

/-- `BankStatement(transactions=[])`. -/
def emptyStatement : LCStatement := { transactions := [] }

/-- Python truthiness of an optional float field. -/
def truthyQ (o : Option Q) : Bool := o.getD 0 ≠ 0

def balanceMarkerTerms : List Str :=
  ["opening balance".toList, "closing balance".toList,
   "beginning balance".toList]

def creditPatternTerms : List Str :=
  ["direct credit".toList, "deposit".toList, "transfer from".toList,
   "received".toList, "refund".toList, "salary".toList, "payroll".toList]

def debitPatternTerms : List Str :=
  ["direct debit".toList, "payment".toList, "purchase".toList,
   "transfer to".toList, "withdrawal".toList, "fee".toList,
   "charge".toList]

def tieBreakCreditTerms : List Str :=
  ["credit".toList, "deposit".toList, "from".toList, "received".toList]

/-- Pattern-forcing stage of `_fix_transaction_classifications`: known
credit patterns move a lone debit to credit, known debit patterns move a
lone credit to debit. -/
def fixPatterns (desc : Str) (t : LCTransaction) : LCTransaction :=
  if creditPatternTerms.any (fun kw => containsSub desc kw) then
    (if truthyQ t.debit && !truthyQ t.credit then
      { t with credit := t.debit, debit := none } else t)
  else if debitPatternTerms.any (fun kw => containsSub desc kw) then
    (if truthyQ t.credit && !truthyQ t.debit then
      { t with debit := t.credit, credit := none } else t)
  else t

/-- Final stage of `_fix_transaction_classifications`: when both sides are
still set, description keywords break the tie. -/
def fixTieBreak (desc : Str) (t1 : LCTransaction) : LCTransaction :=
  if truthyQ t1.debit && truthyQ t1.credit then
    if tieBreakCreditTerms.any (fun kw => containsSub desc kw) then
      { t1 with debit := none }
    else { t1 with credit := none }
  else t1

/-- Loop body of `_fix_transaction_classifications` for one transaction. -/
def fixTxnClass (t : LCTransaction) : LCTransaction :=
  let desc := toLower t.description
  if balanceMarkerTerms.any (fun kw => containsSub desc kw) then
    { t with debit := none, credit := none }
  else fixTieBreak desc (fixPatterns desc t)

/-- `LangChainExtractor._fix_transaction_classifications`. -/
def fix_transaction_classifications (s : LCStatement) : LCStatement :=
  { s with transactions := s.transactions.map fixTxnClass }

/-- `BankStatement.calculate_totals` of this module: sums over truthy
fields only (`sum` of an empty generator is `0`). -/
def lcCalculateTotals (s : LCStatement) : LCStatement :=
  { s with
    total_debits := some (sumQ (s.transactions.map (fun t => t.debit.getD 0)))
    total_credits := some (sumQ (s.transactions.map (fun t => t.credit.getD 0))) }

/-- Parsed JSON values; objects carry Python-dict key semantics (unique
keys, insertion order, re-assignment in place). -/
inductive Json where
  | null
  | bool (b : Bool)
  | num (q : Q)
  | str (s : Str)
  | arr (elems : List Json)
  | obj (fields : List (Str × Json))

/-- Dict insertion: replace in place when the key exists, append
otherwise. -/
def objInsert (fields : List (Str × Json)) (k : Str) (v : Json) :
    List (Str × Json) :=
  if fields.any (fun f => f.1 = k) then
    fields.map (fun f => if f.1 = k then (k, v) else f)
  else fields ++ [(k, v)]

def objGet (fields : List (Str × Json)) (k : Str) : Option Json :=
  (fields.find? (fun f => f.1 = k)).map (·.2)

/-- JSON inter-token whitespace. -/
def jsWS (s : Str) : Str :=
  lstripP (fun c => c = ' ' || c = '\t' || c = '\n' || c = '\x0d') s

/-- JSON string body after the opening quote; the common escapes. -/
def jsonStringBody : Str → Option (Str × Str)
  | [] => none
  | '"' :: rest => some ([], rest)
  | '\\' :: e :: rest =>
      let esc : Option Char :=
        if e = '"' then some '"'
        else if e = '\\' then some '\\'
        else if e = '/' then some '/'
        else if e = 'n' then some '\n'
        else if e = 't' then some '\t'
        else if e = 'r' then some '\x0d'
        else if e = 'b' then some '\x08'
        else if e = 'f' then some '\x0c'
        else none
      match esc, jsonStringBody rest with
      | some c, some (body, rem) => some (c :: body, rem)
      | _, _ => none
  | c :: rest =>
      match jsonStringBody rest with
      | some (body, rem) => some (c :: body, rem)
      | none => none

/-- JSON number at the head of the input: `-? (0 | [1-9]\d*) (\.\d+)?`
(exponents are not needed by any input treated here). -/
def jsonNumber (s : Str) : Option (Q × Str) :=
  let core := fun (t : Str) (sign : Q) =>
    let ip := t.takeWhile isDigit
    if ip = [] then none
    else if ip.length > 1 && ip.headD ' ' = '0' then none
    else
      let rest := t.drop ip.length
      match rest with
      | '.' :: fr =>
          let fp := fr.takeWhile isDigit
          if fp = [] then none
          else some (sign * ((natOfDigits ip : Q) +
            (natOfDigits fp : Q) / (pow10 fp.length : Q)),
            fr.drop fp.length)
      | _ => some (sign * (natOfDigits ip : Q), rest)
  match s with
  | '-' :: t => core t (-1)
  | t => core t 1

mutual

/-- JSON value parser (fuelled; `fuel ≥ input length` suffices). -/
def jsonValue : Nat → Str → Option (Json × Str)
  | 0, _ => none
  | fuel + 1, s =>
      let s := jsWS s
      match s with
      | [] => none
      | c :: rest =>
          if c = lbrace then
            match jsWS rest with
            | d :: rem =>
                if d = rbrace then some (.obj [], rem)
                else jsonMembers fuel (d :: rem) []
            | [] => none
          else if c = '[' then
            match jsWS rest with
            | ']' :: rem => some (.arr [], rem)
            | t => jsonElems fuel t []
          else if c = '"' then
            match jsonStringBody rest with
            | some (body, rem) => some (.str body, rem)
            | none => none
          else if startsWith s "true".toList then
            some (.bool true, s.drop 4)
          else if startsWith s "false".toList then
            some (.bool false, s.drop 5)
          else if startsWith s "null".toList then
            some (.null, s.drop 4)
          else
            match jsonNumber s with
            | some (q, rem) => some (.num q, rem)
            | none => none

/-- Object members after the opening brace (non-empty object). -/
def jsonMembers (fuel : Nat) (s : Str) (acc : List (Str × Json)) :
    Option (Json × Str) :=
  match fuel with
  | 0 => none
  | fuel + 1 =>
      match jsWS s with
      | '"' :: rest =>
          match jsonStringBody rest with
          | some (key, rem) =>
              match jsWS rem with
              | ':' :: rem2 =>
                  match jsonValue fuel rem2 with
                  | some (v, rem3) =>
                      let acc := objInsert acc key v
                      match jsWS rem3 with
                      | ',' :: rem4 => jsonMembers fuel rem4 acc
                      | d :: rem4 =>
                          if d = rbrace then some (.obj acc, rem4) else none
                      | [] => none
                  | none => none
              | _ => none
          | none => none
      | _ => none

/-- Array elements after the opening bracket (non-empty array). -/
def jsonElems (fuel : Nat) (s : Str) (acc : List Json) :
    Option (Json × Str) :=
  match fuel with
  | 0 => none
  | fuel + 1 =>
      match jsonValue fuel s with
      | some (v, rem) =>
          match jsWS rem with
          | ',' :: rem2 => jsonElems fuel rem2 (acc ++ [v])
          | ']' :: rem2 => some (.arr (acc ++ [v]), rem2)
          | _ => none
      | none => none

end

/-- `json.loads`: a single value with only whitespace around it. -/
def jsonLoads (s : Str) : Option Json :=
  match jsonValue (s.length + 1) s with
  | some (v, rest) => if jsWS rest = [] then some v else none
  | none => none

end LCE

namespace LCE

def endsWith (s pat : Str) : Bool := startsWith s.reverse pat.reverse

/-- `re.search(r'\x7b.*\x7d', s, re.DOTALL)`: the region from the first
opening brace that has any closing brace after it, to the last closing
brace of the string. -/
def extractBraces (s : Str) : Option Str :=
  let closers := (List.range s.length).filter (fun j => s.getD j ' ' = rbrace)
  match closers.getLast? with
  | none => none
  | some J =>
      match ((List.range s.length).filter
          (fun i => s.getD i ' ' = lbrace)).find? (fun i => i < J) with
      | some i => some ((s.drop i).take (J - i + 1))
      | none => none

/-- One pass of `re.sub(r',\s*C', 'C', s)` for a closing character `C`:
leftmost, non-overlapping, continuing after each replacement. -/
def subCommaCloseAux (close : Char) : Nat → Str → Str
  | 0, s => s
  | fuel + 1, s =>
      match s with
      | [] => []
      | ',' :: rest =>
          let after := rest.dropWhile isWS
          if after.headD ' ' = close then
            close :: subCommaCloseAux close fuel (after.drop 1)
          else ',' :: subCommaCloseAux close fuel rest
      | c :: rest => c :: subCommaCloseAux close fuel rest

def subCommaClose (close : Char) (s : Str) : Str :=
  subCommaCloseAux close s.length s

/-- Trailing-comma removal of `_manual_json_parse`: commas before closing
braces, then commas before closing brackets. -/
def removeCommas (s : Str) : Str :=
  subCommaClose ']' (subCommaClose rbrace s)

/-- Character class `[0-9.\s+\-*/]` of the totals-expression group. -/
def exprChar (c : Char) : Bool :=
  isDigit c || c = '.' || isWS c || c = '+' || c = '-' || c = '*' || c = '/'

/-- Tokens of the restricted arithmetic expressions `eval` receives. -/
inductive ATok where
  | num (q : Q) (isFloat : Bool)
  | plus
  | minus
  | star
  | slash
  deriving Repr, DecidableEq

/-- Python tokenizer on the restricted character class: numbers
(`\d+(\.\d*)?` or `\.\d+`), the four operators, whitespace skipped. -/
def atokenize : Nat → Str → Option (List ATok)
  | 0, s => if s = [] then some [] else none
  | fuel + 1, s =>
      match s with
      | [] => some []
      | c :: rest =>
          if isWS c then atokenize fuel rest
          else if c = '+' then (atokenize fuel rest).map (.plus :: ·)
          else if c = '-' then (atokenize fuel rest).map (.minus :: ·)
          else if c = '*' then (atokenize fuel rest).map (.star :: ·)
          else if c = '/' then (atokenize fuel rest).map (.slash :: ·)
          else if c = '.' then
            let fp := rest.takeWhile isDigit
            if fp = [] then none
            else (atokenize fuel (rest.drop fp.length)).map
              (.num ((natOfDigits fp : Q) / (pow10 fp.length : Q)) true :: ·)
          else if isDigit c then
            let ip := (c :: rest).takeWhile isDigit
            let rest2 := (c :: rest).drop ip.length
            match rest2 with
            | '.' :: tl =>
                let fp := tl.takeWhile isDigit
                (atokenize fuel (tl.drop fp.length)).map
                  (.num ((natOfDigits ip : Q) +
                    (natOfDigits fp : Q) / (pow10 fp.length : Q)) true :: ·)
            | _ => (atokenize fuel rest2).map
                (.num (natOfDigits ip : Q) false :: ·)
          else none

/-- Factor: unary signs then one number literal. -/
def parseFactor : List ATok → Option ((Q × Bool) × List ATok)
  | .plus :: rest => parseFactor rest
  | .minus :: rest =>
      (parseFactor rest).map (fun r => ((-r.1.1, r.1.2), r.2))
  | .num q f :: rest => some ((q, f), rest)
  | _ => none

/-- Term: factors combined by `*` and `/` (division yields a float and
fails on a zero divisor, Python's ZeroDivisionError). -/
def parseTermAux : Nat → (Q × Bool) → List ATok →
    Option ((Q × Bool) × List ATok)
  | 0, acc, ts => some (acc, ts)
  | fuel + 1, acc, ts =>
      match ts with
      | .star :: rest =>
          match parseFactor rest with
          | some (v, rem) =>
              parseTermAux fuel (acc.1 * v.1, acc.2 || v.2) rem
          | none => none
      | .slash :: rest =>
          match parseFactor rest with
          | some (v, rem) =>
              if v.1 = 0 then none
              else parseTermAux fuel (acc.1 / v.1, true) rem
          | none => none
      | _ => some (acc, ts)

def parseTerm (ts : List ATok) : Option ((Q × Bool) × List ATok) :=
  match parseFactor ts with
  | some (v, rest) => parseTermAux rest.length v rest
  | none => none

/-- Expression: terms combined by `+` and `-`. -/
def parseArithAux : Nat → (Q × Bool) → List ATok →
    Option ((Q × Bool) × List ATok)
  | 0, acc, ts => some (acc, ts)
  | fuel + 1, acc, ts =>
      match ts with
      | .plus :: rest =>
          match parseTerm rest with
          | some (v, rem) =>
              parseArithAux fuel (acc.1 + v.1, acc.2 || v.2) rem
          | none => none
      | .minus :: rest =>
          match parseTerm rest with
          | some (v, rem) =>
              parseArithAux fuel (acc.1 - v.1, acc.2 || v.2) rem
          | none => none
      | _ => some (acc, ts)

/-- `eval(expr, ...)` on the restricted arithmetic expressions, followed by
Python `str` of the resulting `int` or `float`. -/
def evalExpr (s : Str) : Option Str :=
  match atokenize s.length s with
  | none => none
  | some ts =>
      match parseTerm ts with
      | some (v0, rest0) =>
          match parseArithAux rest0.length v0 rest0 with
          | some (v, []) =>
              some (if v.2 then renderPyFloat v.1 else renderPyInt v.1.num)
          | _ => none
      | none => none

/-- The two quoted field names of the totals-fix regex. -/
def calcFieldNames : List Str :=
  ["total_debits".toList, "total_credits".toList]

/-- Try the totals-fix regex anchored at the start of `s`; on a match
return `(replacement or original matched text, rest of input)`. -/
def tryCalcAt (s : Str) : Option (Str × Str) :=
  match calcFieldNames.find?
      (fun name => startsWith s ('"' :: name ++ ['"'])) with
  | none => none
  | some name =>
      let lit := '"' :: name ++ ['"']
      let afterName := s.drop lit.length
      let a1 := afterName.dropWhile isWS
      match a1 with
      | ':' :: a1' =>
          let a2 := a1'.dropWhile isWS
          let expr := a2.takeWhile exprChar
          if expr = [] then none
          else
            let rest := a2.drop expr.length
            let consumed := s.length - rest.length
            match evalExpr expr with
            | some rendered => some (lit ++ ':' :: ' ' :: rendered, rest)
            | none => some (s.take consumed, rest)
      | _ => none

/-- `re.sub` with the `fix_calculations` callback: leftmost,
non-overlapping, replacements not rescanned. -/
def fixCalculationsAux : Nat → Str → Str
  | 0, s => s
  | fuel + 1, s =>
      match s with
      | [] => []
      | c :: rest =>
          match tryCalcAt s with
          | some (rep, rem) => rep ++ fixCalculationsAux fuel rem
          | none => c :: fixCalculationsAux fuel rest

def fixCalculations (s : Str) : Str := fixCalculationsAux s.length s

/-- Python `float(x.replace('$','').replace(',',''))` on a string field. -/
def floatOfStrField (s : Str) : Option Q :=
  parseQ (removeChar ',' (removeChar '$' s))

/-- The per-transaction cleanup loop of `_manual_json_parse` step 3 for
one element of `data['transactions']`; a non-dict element raises
(`none`). -/
def cleanTxn : Json → Option Json
  | .obj fs =>
      let fs1 := match objGet fs "category".toList with
        | none => objInsert fs "category".toList (.str "Other".toList)
        | some .null => objInsert fs "category".toList (.str "Other".toList)
        | some (.str []) => objInsert fs "category".toList (.str "Other".toList)
        | some _ => fs
      let fixNum := fun (fields : List (Str × Json)) (key : Str) =>
        match objGet fields key with
        | some (.str v) =>
            match floatOfStrField v with
            | some q => objInsert fields key (.num q)
            | none => objInsert fields key .null
        | _ => fields
      some (.obj (fixNum (fixNum (fixNum fs1 "debit".toList)
        "credit".toList) "balance".toList))
  | _ => none

/-- Step 3 of `_manual_json_parse`: when `data` has a truthy
`transactions` entry, clean each transaction dict; iterating a truthy
non-list raises (`none`); a falsy or missing entry is left alone. -/
def cleanTxns : Json → Option Json
  | .obj fs =>
      (match objGet fs "transactions".toList with
       | none => some (.obj fs)
       | some (.arr []) => some (.obj fs)
       | some (.arr es) =>
           (es.mapM cleanTxn).map
             (fun es' => .obj (objInsert fs "transactions".toList (.arr es')))
       | some .null => some (.obj fs)
       | some (.bool b) => if b then none else some (.obj fs)
       | some (.num q) => if q = 0 then some (.obj fs) else none
       | some (.str s) => if s = [] then some (.obj fs) else none
       | some (.obj fs') => if fs'.isEmpty then some (.obj fs) else none)
  | j => some j

/-- The `validate_date` field validator of this module: an `m/d/y` date is
rearranged to `y-mm-dd` (zero-filled month and day); everything else is
returned unchanged.  (For a string containing `/` but not exactly three
components the source's validator falls off the end; no such date occurs
here.) -/
def lcValidateDate (v : Str) : Str :=
  if v.contains '/' then
    match splitOn '/' v with
    | [mo, d, y] => y ++ '-' :: zfill 2 mo ++ '-' :: zfill 2 d
    | _ => v
  else v

/-- Pydantic construction `BankTransaction(**txn)` (v2 lax mode: numeric
strings coerce to float, `None` passes `Optional` fields, everything else
is a validation error). -/
def txnFromJson : Json → Option LCTransaction
  | .obj fs => do
      let date ← match objGet fs "date".toList with
        | some (.str s) => some (lcValidateDate s)
        | _ => none
      let description ← match objGet fs "description".toList with
        | some (.str s) => some s
        | _ => none
      let category ← match objGet fs "category".toList with
        | none => some (some "Other".toList)
        | some (.str s) => some (some s)
        | some .null => some none
        | some _ => none
      let optAmt := fun (key : Str) =>
        match objGet fs key with
        | none => some none
        | some .null => some none
        | some (.num q) => some (some q)
        | some (.str s) => (parseQ s).map some
        | some _ => none
      let debit ← optAmt "debit".toList
      let credit ← optAmt "credit".toList
      let balance ← match objGet fs "balance".toList with
        | some (.num q) => some q
        | some (.str s) => parseQ s
        | _ => none
      pure { date := date, description := description, category := category,
             debit := debit, credit := credit, balance := balance }
  | _ => none

/-- Pydantic construction `BankStatement(**data)`. -/
def statementFromJson : Json → Option LCStatement
  | .obj fs => do
      let optStr := fun (key : Str) =>
        match objGet fs key with
        | none => some none
        | some .null => some none
        | some (.str s) => some (some s)
        | some _ => none
      let bank_name ← optStr "bank_name".toList
      let account_number ← optStr "account_number".toList
      let statement_period ← optStr "statement_period".toList
      let transactions ← match objGet fs "transactions".toList with
        | some (.arr es) => es.mapM txnFromJson
        | _ => none
      let optTot := fun (key : Str) =>
        match objGet fs key with
        | none => some none
        | some .null => some none
        | some (.num q) => some (some q)
        | some (.str s) => (parseQ s).map some
        | some _ => none
      let total_debits ← optTot "total_debits".toList
      let total_credits ← optTot "total_credits".toList
      pure { bank_name := bank_name, account_number := account_number,
             statement_period := statement_period,
             transactions := transactions, total_debits := total_debits,
             total_credits := total_credits }
  | _ => none

/-- The fence-stripping and cleaning front of `_manual_json_parse`. -/
def cleanResponse (response : Str) : Str :=
  let cleaned0 := strip response
  let c1 := if startsWith cleaned0 "```json".toList then cleaned0.drop 7
    else cleaned0
  let c2 := if startsWith c1 "```".toList then c1.drop 3 else c1
  let c3 := if endsWith c2 "```".toList then c2.take (c2.length - 3) else c2
  strip c3

/-- The JSON value that `_manual_json_parse` manages to decode, if any:
brace-region extraction plus comma/arithmetic repair, or a direct
`json.loads` of the cleaned response when no brace region exists. -/
def recoveredJson (response : Str) : Option Json :=
  let cleaned := cleanResponse response
  match extractBraces cleaned with
  | some json_str => jsonLoads (fixCalculations (removeCommas json_str))
  | none => jsonLoads cleaned

/-- `LangChainExtractor._manual_json_parse`: decode failures and model
construction failures all return the empty statement. -/
def manual_json_parse (response : Str) : LCStatement :=
  let cleaned := cleanResponse response
  match extractBraces cleaned with
  | some json_str =>
      match jsonLoads (fixCalculations (removeCommas json_str)) with
      | none => emptyStatement
      | some data =>
          match cleanTxns data with
          | none => emptyStatement
          | some data' => (statementFromJson data').getD emptyStatement
  | none =>
      match jsonLoads cleaned with
      | none => emptyStatement
      | some d => (statementFromJson d).getD emptyStatement

end LCE

/-!
## Embedding of `bank_statement_post_processor.py`

`validate_and_fix_bank_extraction` pops a leading opening-balance row,
reports missing-end and balance-continuity issues, and repairs
descriptions: `blank` removal and extraction of a brace-delimited numeric
reference code. -/

def squote : Char := Char.ofNat 39

namespace PostProc

/-- A transaction dict as this module reads it. -/
structure PTxn where
  date : Str
  description : Str
  reference : Option Str := none
  debit : Q := 0
  credit : Q := 0
  balance : Q := 0
  deriving Repr, DecidableEq

/-- Result dict of `validate_and_fix_bank_extraction`. -/
structure PPResult where
  transactions : List PTxn
  issues : List Str
  fixes_applied : List Str
  transaction_count : Nat
  deriving Repr, DecidableEq

/-- `re.search(r'\x5c\x7b(\d+)\x5c\x7d', desc)`: digits of the first
brace-delimited digit group. -/
def braceRefSearch : Str → Option Str
  | [] => none
  | c :: rest =>
      if c = lbrace then
        let ds := rest.takeWhile isDigit
        if ds ≠ [] && (rest.drop ds.length).headD ' ' = rbrace then some ds
        else braceRefSearch rest
      else braceRefSearch rest

/-- `re.sub(r'\s*\x5c\x7b\d+\x5c\x7d', '', desc)`: remove every
brace-delimited digit group together with the whitespace run immediately
before it. -/
def subBraceRefAux : Nat → Str → Str
  | 0, s => s
  | fuel + 1, s =>
      match s with
      | [] => []
      | c :: rest =>
          let ws := s.takeWhile isWS
          let t := s.drop ws.length
          match t with
          | b :: t2 =>
              if b = lbrace then
                let ds := t2.takeWhile isDigit
                if ds ≠ [] && (t2.drop ds.length).headD ' ' = rbrace then
                  subBraceRefAux fuel (t2.drop (ds.length + 1))
                else c :: subBraceRefAux fuel rest
              else c :: subBraceRefAux fuel rest
          | [] => c :: subBraceRefAux fuel rest

def subBraceRef (s : Str) : Str := subBraceRefAux s.length s

/-- Step 4 of `validate_and_fix_bank_extraction` for one transaction.
Both fixes read the original description: when the brace fix fires it
overwrites the result of the `blank` fix. -/
def fixTxnDesc (t : PTxn) : PTxn :=
  let desc := t.description
  let t1 :=
    if containsSub (toLower desc) "blank".toList then
      { t with description := strip (replaceSub "blank".toList [] desc) }
    else t
  if desc.contains lbrace && desc.contains rbrace then
    match braceRefSearch desc with
    | some ds =>
        { t1 with reference := some ds, description := strip (subBraceRef desc) }
    | none => t1
  else t1

/-- Python `str` of a list of strings (`repr` of each element). -/
def renderStrList (ss : List Str) : Str :=
  '[' :: (List.intersperse ", ".toList
    (ss.map (fun s => squote :: s ++ [squote]))).flatten ++ [']']

/-- Step 3: balance-continuity issues, one message per discontinuity. -/
def continuityIssues : Option Q → Nat → List PTxn → List Str
  | _, _, [] => []
  | prev, i, t :: rest =>
      (match prev with
       | some pb =>
           if Q.qabs (pb - t.debit + t.credit - t.balance) > 1/100 then
             ["Balance discontinuity at transaction ".toList ++
               renderNat (i + 1)]
           else []
       | none => []) ++ continuityIssues (some t.balance) (i + 1) rest

/-- `validate_and_fix_bank_extraction` (the `transactions` entry of
`extracted_data`; `original_text` is never read). -/
def validate_and_fix_bank_extraction (transactions : List PTxn) : PPResult :=
  let (ts, fixes) :=
    match transactions with
    | t :: rest =>
        if containsSub (toLower t.description) "opening balance".toList then
          (rest, ["Removed opening balance from transactions".toList])
        else (transactions, ([] : List Str))
    | [] => ([], [])
  let endIssue :=
    match ts.getLast? with
    | some lastT =>
        if !(containsSub (renderStrList (ts.map (·.date))) "31 DEC".toList)
            && (["NOV".toList, "OCT".toList, "SEP".toList].any
              (fun m => containsSub lastT.date m)) then
          ["Possible missing end-of-year transactions".toList]
        else []
    | none => []
  let issues := endIssue ++ continuityIssues none 0 ts
  let ts2 := ts.map fixTxnDesc
  { transactions := ts2
    issues := issues
    fixes_applied := fixes
    transaction_count := ts2.length }

end PostProc

/-!
## Shared helpers for the claim theorems
-/

/-- Default transaction for `List.getD` indexing in theorem statements. -/
def dTxn : ParserV3.BankTransaction := ⟨[], [], [], 0, 0, 0⟩

/-- Project the statement out of a JSON-format extraction result. -/
def jsonData : Option Unified.ExtractResult → Option ParserV3.BankStatement
  | some (.jsonR d _ _ _) => some d
  | _ => none

/-- Input of the C2 counterexample: a space-delimited row with three
amounts (the first line is always skipped by the `i <= header_idx + 1`
rule, hence the leading newline). -/
def c2Input : Str := "\n01/02/2024 Groceries 100.00 200.00 300.00".toList

/-- Input of the C4 counterexample: two keyword-contradicted rows that
trigger the global swap. -/
def c4Input : Str :=
  "\n01/02/2024 Direct Credit AB 100.00 50.00\n02/02/2024 Direct Credit CD 200.00 75.00".toList

/-- Input of the C5 counterexample: a balance discontinuity with no swap
keywords. -/
def c5Input : Str :=
  "\n01/02/2024 Rent AB 100.00 50.00\n02/02/2024 Rent CD 200.00 75.00".toList

/-- Input of the C9 counterexample: a data row whose description contains
"date" case-insensitively (`manDATE`). -/
def c9Line : Str :=
  "| 01/02/2024 | Mandate payment | | 50.00 | | 950.00 |".toList

/-- Input of the C6 amended theorem: fenced JSON with a trailing comma and
an arithmetic totals expression. -/
def c6Good : Str :=
  "```json\n\x7b\"transactions\": [],\n \"total_debits\": 12.5 + 3.2,\n\x7d\n```".toList

/-- Input of the C6 counterexample: an irrecoverable JSON-shaped response
that also contains a perfectly parseable table row. -/
def c6Bad : Str :=
  "\x7b \"oops\": [ \x7d\n| 01/02/2024 | Rent AB | | 50.00 | | 950.00 |".toList

/-!
## C1 — balance-delta arbitration
-/

/-- C1: for a row with a known previous balance and a single positive
amount, the resolver of `parse_bank_table_to_json` computes
`delta = balance - prev_balance`, classifies the amount as a credit when
`|delta - amount| < 0.01`, otherwise as a debit when
`|delta + amount| < 0.01`, and only otherwise falls back to the
description-keyword classification.  Result pairs are `(debit, credit)`. -/
theorem c1_balance_delta_arbitration
    (amount prev_balance balance : Q) (desc : Str) (hpos : 0 < amount) :
    (Q.qabs (balance - prev_balance - amount) < 1/100 →
      TableV3.smartDetect amount prev_balance balance desc = (0, amount)) ∧
    (¬(Q.qabs (balance - prev_balance - amount) < 1/100) →
      Q.qabs (balance - prev_balance + amount) < 1/100 →
      TableV3.smartDetect amount prev_balance balance desc = (amount, 0)) ∧
    (¬(Q.qabs (balance - prev_balance - amount) < 1/100) →
      ¬(Q.qabs (balance - prev_balance + amount) < 1/100) →
      TableV3.smartDetect amount prev_balance balance desc =
        (if TableV3.creditKeywords.any
            (fun kw => containsSub (toLower desc) kw)
         then (0, amount) else (amount, 0))) := by
  refine ⟨fun h1 => ?_, fun h1 h2 => ?_, fun h1 h2 => ?_⟩ <;>
    simp only [TableV3.smartDetect, if_pos hpos]
  · rw [if_pos h1]
  · rw [if_neg h1, if_pos h2]
  · rw [if_neg h1, if_neg h2]

theorem c1_balance_delta_arbitration_witness :
    TableV3.smartDetect 5 0 5 [] = (0, 5) :=
  (c1_balance_delta_arbitration 5 0 5 [] (by decide)).1 (by decide)

/-!
## C10 — unknown output format returns `None`
-/

/-- C10: `extract_and_validate` with an `output_format` other than
`"json"`, `"csv"` or `"table"` returns `None` for every input text: no
branch handles an unknown format after successful parsing. -/
theorem c10_unknown_format_returns_none (text fmt : Str)
    (h1 : fmt ≠ "json".toList) (h2 : fmt ≠ "csv".toList)
    (h3 : fmt ≠ "table".toList) :
    Unified.extract_and_validate text fmt = none := by
  simp only [Unified.extract_and_validate, if_neg h1, if_neg h2, if_neg h3]

theorem c10_unknown_format_returns_none_witness :
    Unified.extract_and_validate [] "xml".toList = none :=
  c10_unknown_format_returns_none [] "xml".toList (by decide) (by decide)
    (by decide)

/-!
## C2 — mutual exclusivity
-/

/-- C2 counterexample: the v3 parsing pipeline emits a transaction with
both debit and credit non-zero (a space-delimited row with three amounts
assigns `debit, credit, balance` positionally and no correction runs in
this pipeline), and the transaction reaches the extractor's JSON output
unchanged. -/
theorem c2_mutual_exclusivity_counterexample :
    ((ParserV3.parse c2Input).transactions.map
      (fun t => (t.debit, t.credit)) = [((100 : Q), (200 : Q))]) ∧
    ((jsonData (Unified.extract_and_validate c2Input "json".toList)).map
      (fun s => s.transactions.map (fun t => (t.debit, t.credit))) =
      some [((100 : Q), (200 : Q))]) ∧
    (100 : Q) ≠ 0 ∧ (200 : Q) ≠ 0 := by
  refine ⟨by decide, by decide, by decide, by decide⟩

/-- C2 amended: mutual exclusivity does hold for the LangChain extractor
pipeline, whose `_fix_transaction_classifications` post-processing clears
one side whenever both are set; it is not enforced in the v3 table
pipeline. -/
theorem c2_mutual_exclusivity_amended (s : LCE.LCStatement)
    (t : LCE.LCTransaction)
    (ht : t ∈ (LCE.fix_transaction_classifications s).transactions) :
    t.debit.getD 0 = 0 ∨ t.credit.getD 0 = 0 := by
  simp only [LCE.fix_transaction_classifications, List.mem_map] at ht
  obtain ⟨t0, -, rfl⟩ := ht
  have tie : ∀ (desc : Str) (t1 : LCE.LCTransaction),
      (LCE.fixTieBreak desc t1).debit.getD 0 = 0 ∨
      (LCE.fixTieBreak desc t1).credit.getD 0 = 0 := by
    intro desc t1
    unfold LCE.fixTieBreak
    by_cases hb : (LCE.truthyQ t1.debit && LCE.truthyQ t1.credit) = true
    · rw [if_pos hb]
      split
      · left; rfl
      · right; rfl
    · rw [if_neg hb]
      rw [Bool.and_eq_true, not_and_or] at hb
      rcases hb with hb | hb
      · left
        simpa [LCE.truthyQ] using hb
      · right
        simpa [LCE.truthyQ] using hb
  by_cases hm : (LCE.balanceMarkerTerms.any
      (fun kw => containsSub (toLower t0.description) kw)) = true
  · simp only [LCE.fixTxnClass, hm, if_true]
    left; rfl
  · simp only [LCE.fixTxnClass, hm, if_false]
    exact tie _ _

theorem c2_mutual_exclusivity_amended_witness :
    (⟨"d".toList, "x".toList, none, some 5, some 3, 8⟩ :
      LCE.LCTransaction).credit.getD 0 = 0 ∨
    ((LCE.fixTxnClass ⟨"d".toList, "x".toList, none, some 5, some 3, 8⟩).debit.getD 0 = 0 ∨
     (LCE.fixTxnClass ⟨"d".toList, "x".toList, none, some 5, some 3, 8⟩).credit.getD 0 = 0) :=
  Or.inr (c2_mutual_exclusivity_amended
    { transactions := [⟨"d".toList, "x".toList, none, some 5, some 3, 8⟩] }
    (LCE.fixTxnClass ⟨"d".toList, "x".toList, none, some 5, some 3, 8⟩)
    (by simp [LCE.fix_transaction_classifications]))

/-!
## C4 — totals consistency
-/

/-- C4 counterexample: after the fix-common-issues repair pass swaps debit
and credit, the totals are not recalculated, so `total_debits` (300) no
longer equals the sum of the debit fields (0). -/
theorem c4_totals_counterexample :
    (jsonData (Unified.extract_and_validate c4Input "json".toList)).map
      (fun s => (s.total_debits, sumQ (s.transactions.map (·.debit)),
        s.total_credits, sumQ (s.transactions.map (·.credit)))) =
      some ((300 : Q), 0, 0, 300) ∧ (300 : Q) ≠ 0 := by
  exact ⟨by decide, by decide⟩

/-- C4 amended: totals equal the exact sums of the debit/credit fields in
every statement the v3 parse pipeline produces (both the
`calculate_totals` path and the empty-statement path), but
`_fix_common_issues` leaves the totals fields untouched while possibly
swapping the per-transaction fields, so the equality can fail after that
repair pass. -/
theorem c4_totals_amended :
    (∀ text : Str,
      (ParserV3.parse text).total_debits =
        sumQ ((ParserV3.parse text).transactions.map (·.debit)) ∧
      (ParserV3.parse text).total_credits =
        sumQ ((ParserV3.parse text).transactions.map (·.credit))) ∧
    (∀ (s : ParserV3.BankStatement) (errors : List Str),
      (Unified.fix_common_issues s errors).total_debits = s.total_debits ∧
      (Unified.fix_common_issues s errors).total_credits = s.total_credits) := by
  constructor
  · intro text
    simp only [ParserV3.parse]
    split
    · exact ⟨rfl, rfl⟩
    · exact ⟨rfl, rfl⟩
  · intro s errors
    exact ⟨rfl, rfl⟩

/-!
## C5 — no silent per-row repair below the swap threshold
-/

/-- C5 counterexample: with no swap keywords (zero indicators, below the
30% threshold) but a balance discontinuity, the repair pass still rewrites
every balance from the opening balance (50 becomes -100, 75 becomes -300);
debit and credit are left as extracted. -/
theorem c5_frame_counterexample :
    Unified.swapIndicators (ParserV3.parse c5Input).transactions = 0 ∧
    (ParserV3.parse c5Input).transactions.map (·.balance) =
      [(50 : Q), 75] ∧
    (jsonData (Unified.extract_and_validate c5Input "json".toList)).map
      (fun s => s.transactions.map (·.balance)) =
      some [(-100 : Q), -300] ∧
    ((-100 : Q) ≠ 50) := by
  exact ⟨by decide, by decide, by decide, by decide⟩

/-!
## C6 — malformed-JSON recovery
-/

/-- C6 counterexample: on a JSON-shaped response whose JSON cannot be
recovered, `_manual_json_parse` returns the empty statement — it does not
fall back to table parsing, although the same response contains a table
row that the table parser extracts. -/
theorem c6_json_recovery_counterexample :
    (LCE.recoveredJson c6Bad).isNone = true ∧
    LCE.manual_json_parse c6Bad = LCE.emptyStatement ∧
    (LCE.manual_json_parse c6Bad).transactions.length = 0 ∧
    (TableV3.parse_bank_table_to_json c6Bad).transaction_count = 1 := by
  exact ⟨rfl, by decide, by decide, by decide⟩

/-- C6 amended: the recovery does strip markdown fences, remove trailing
commas and evaluate arithmetic in the totals fields (the fenced example
with `12.5 + 3.2` parses to a statement with `total_debits = 15.7`), and
when JSON recovery fails it returns the empty statement rather than
raising; the fallback to table parsing lives in the separate
`BankStatementParser.parse` flow, not here. -/
theorem c6_json_recovery_amended :
    (LCE.manual_json_parse c6Good =
      { bank_name := none, account_number := none, statement_period := none,
        transactions := [], total_debits := some (157 / 10),
        total_credits := none }) ∧
    (∀ r : Str, LCE.recoveredJson r = none →
      LCE.manual_json_parse r = LCE.emptyStatement) := by
  constructor
  · decide
  · intro r hr
    simp only [LCE.manual_json_parse]
    simp only [LCE.recoveredJson] at hr
    rcases h : LCE.extractBraces (LCE.cleanResponse r) with - | js
    · simp only [h] at hr ⊢
      simp only [hr]
    · simp only [h] at hr ⊢
      simp only [hr]

theorem c6_json_recovery_amended_witness :
    LCE.manual_json_parse ('[' :: "]x".toList) = LCE.emptyStatement :=
  c6_json_recovery_amended.2 ('[' :: "]x".toList) rfl

/-!
## C9 — header-skip by the substring "DATE"
-/

/-- C9 counterexample: the uppercased row contains `DATE` (inside
`MANDATE`), yet `parse_bank_table_to_json` emits a transaction from it:
the source's check `'Date' in line.upper()` can never fire. -/
theorem c9_header_skip_counterexample :
    containsSub (toUpper c9Line) "DATE".toList = true ∧
    (TableV3.parse_bank_table_to_json c9Line).transaction_count = 1 ∧
    (TableV3.parse_bank_table_to_json c9Line).transactions.map
      (fun t => (t.debit, t.credit, t.balance)) = [((50 : Q), 0, 950)] := by
  exact ⟨by decide, by decide, by decide⟩

/-!
## C3 / C5 — the repair pass, above and below the swap threshold
-/

theorem recomputeBalances_length (r : Q) (ts : List ParserV3.BankTransaction) :
    (Unified.recomputeBalances r ts).length = ts.length := by
  induction ts generalizing r with
  | nil => rfl
  | cons t rest ih => simp [Unified.recomputeBalances, ih]

theorem getD_map_of_lt {α β : Type} (f : α → β) (l : List α) (i : Nat)
    (d : β) (d' : α) (h : i < l.length) :
    (l.map f).getD i d = f (l.getD i d') := by
  induction l generalizing i with
  | nil => simp at h
  | cons a t ih =>
      cases i with
      | zero => rfl
      | succ j =>
          simp only [List.map_cons, List.getD_cons_succ]
          exact ih j (by simpa using h)

theorem recomputeBalances_getD_keep (r : Q)
    (ts : List ParserV3.BankTransaction) (i : Nat) (h : i < ts.length) :
    ((Unified.recomputeBalances r ts).getD i dTxn).debit =
      (ts.getD i dTxn).debit ∧
    ((Unified.recomputeBalances r ts).getD i dTxn).credit =
      (ts.getD i dTxn).credit := by
  induction ts generalizing r i with
  | nil => simp at h
  | cons t rest ih =>
      cases i with
      | zero => exact ⟨rfl, rfl⟩
      | succ j =>
          simp only [Unified.recomputeBalances, List.getD_cons_succ]
          exact ih _ j (by simpa using h)

theorem recomputeBalances_getD_balance (r : Q)
    (ts : List ParserV3.BankTransaction) (i : Nat) (h : i < ts.length) :
    ((Unified.recomputeBalances r ts).getD i dTxn).balance =
      (if i = 0 then r
       else ((Unified.recomputeBalances r ts).getD (i - 1) dTxn).balance)
      + (ts.getD i dTxn).credit - (ts.getD i dTxn).debit := by
  induction ts generalizing r i with
  | nil => simp at h
  | cons t rest ih =>
      cases i with
      | zero => rfl
      | succ j =>
          simp only [Unified.recomputeBalances, List.getD_cons_succ]
          rw [ih (r + t.credit - t.debit) j (by simpa using h)]
          cases j with
          | zero => rfl
          | succ k => rfl

/-- C3: when the swap-indicator count strictly exceeds 30% of the
transactions, `_fix_common_issues` exchanges debit and credit in every
transaction and recomputes every balance by the running formula
`balance[i] = balance[i-1] + credit[i] - debit[i]` from the statement's
opening balance, overwriting the extracted balances. -/
theorem c3_global_swap_repair (s : ParserV3.BankStatement)
    (errors : List Str)
    (h : (Unified.swapIndicators s.transactions : Q) >
      (s.transactions.length : Q) * (3/10)) :
    (Unified.fix_common_issues s errors).transactions.length =
      s.transactions.length ∧
    ∀ i, i < s.transactions.length →
      ((Unified.fix_common_issues s errors).transactions.getD i dTxn).debit =
        (s.transactions.getD i dTxn).credit ∧
      ((Unified.fix_common_issues s errors).transactions.getD i dTxn).credit =
        (s.transactions.getD i dTxn).debit ∧
      ((Unified.fix_common_issues s errors).transactions.getD i dTxn).balance =
        (if i = 0 then s.opening_balance
         else ((Unified.fix_common_issues s errors).transactions.getD
            (i - 1) dTxn).balance)
        + ((Unified.fix_common_issues s errors).transactions.getD i
            dTxn).credit
        - ((Unified.fix_common_issues s errors).transactions.getD i
            dTxn).debit := by
  have hne : s.transactions ≠ [] := by
    intro he
    rw [he] at h
    exact absurd h (by decide)
  have hmapne : s.transactions.map
      (fun t => { t with debit := t.credit, credit := t.debit }) ≠ [] := by
    simpa using hne
  have hts : (Unified.fix_common_issues s errors).transactions =
      Unified.recomputeBalances s.opening_balance
        (s.transactions.map
          (fun t => { t with debit := t.credit, credit := t.debit })) := by
    simp only [Unified.fix_common_issues, if_pos h, if_pos hmapne]
  constructor
  · rw [hts, recomputeBalances_length, List.length_map]
  · intro i hi
    have hi' : i < (s.transactions.map
        (fun t => { t with debit := t.credit, credit := t.debit })).length := by
      simpa using hi
    have hkeep := recomputeBalances_getD_keep s.opening_balance _ i hi'
    have hbal := recomputeBalances_getD_balance s.opening_balance _ i hi'
    rw [hts]
    rw [getD_map_of_lt _ _ i dTxn dTxn hi] at hkeep hbal
    refine ⟨by rw [hkeep.1], by rw [hkeep.2], ?_⟩
    rw [hbal, hkeep.1, hkeep.2]

/-- Witness statement for C3: one "Direct Credit" transaction extracted
with a debit. -/
def c3Stmt : ParserV3.BankStatement :=
  { transactions :=
      [⟨"01/02/2024".toList, "Direct Credit A".toList, "Other".toList,
        50, 0, 10⟩] }

theorem c3_global_swap_repair_witness :
    ((Unified.fix_common_issues c3Stmt []).transactions.getD 0 dTxn).debit =
      (c3Stmt.transactions.getD 0 dTxn).credit ∧
    ((Unified.fix_common_issues c3Stmt []).transactions.getD 0 dTxn).credit =
      (c3Stmt.transactions.getD 0 dTxn).debit ∧
    ((Unified.fix_common_issues c3Stmt []).transactions.getD 0 dTxn).balance =
      (if (0 : Nat) = 0 then c3Stmt.opening_balance
       else ((Unified.fix_common_issues c3Stmt []).transactions.getD
          (0 - 1) dTxn).balance)
      + ((Unified.fix_common_issues c3Stmt []).transactions.getD 0
          dTxn).credit
      - ((Unified.fix_common_issues c3Stmt []).transactions.getD 0
          dTxn).debit :=
  (c3_global_swap_repair c3Stmt [] (by decide)).2 0 (by decide)

/-- C5 amended: below the swap threshold the repair pass leaves every
debit and credit exactly as extracted, but it still recomputes every
balance from the opening balance by the running formula whenever it runs
(the original claim's "balance left as extracted" fails). -/
theorem c5_frame_amended (s : ParserV3.BankStatement) (errors : List Str)
    (h : ¬((Unified.swapIndicators s.transactions : Q) >
      (s.transactions.length : Q) * (3/10))) :
    (Unified.fix_common_issues s errors).transactions.length =
      s.transactions.length ∧
    ∀ i, i < s.transactions.length →
      ((Unified.fix_common_issues s errors).transactions.getD i dTxn).debit =
        (s.transactions.getD i dTxn).debit ∧
      ((Unified.fix_common_issues s errors).transactions.getD i dTxn).credit =
        (s.transactions.getD i dTxn).credit ∧
      ((Unified.fix_common_issues s errors).transactions.getD i dTxn).balance =
        (if i = 0 then s.opening_balance
         else ((Unified.fix_common_issues s errors).transactions.getD
            (i - 1) dTxn).balance)
        + (s.transactions.getD i dTxn).credit
        - (s.transactions.getD i dTxn).debit := by
  by_cases he : s.transactions = []
  · have hts : (Unified.fix_common_issues s errors).transactions = [] := by
      simp only [Unified.fix_common_issues, if_neg h, he]
      simp
    rw [hts]
    refine ⟨by rw [he], ?_⟩
    intro i hi
    rw [he] at hi
    exact absurd hi (by simp)
  · have hts : (Unified.fix_common_issues s errors).transactions =
        Unified.recomputeBalances s.opening_balance s.transactions := by
      simp only [Unified.fix_common_issues, if_neg h, if_pos he]
    constructor
    · rw [hts, recomputeBalances_length]
    · intro i hi
      have hkeep := recomputeBalances_getD_keep s.opening_balance
        s.transactions i hi
      have hbal := recomputeBalances_getD_balance s.opening_balance
        s.transactions i hi
      rw [hts]
      exact ⟨hkeep.1, hkeep.2, hbal⟩

/-- Witness statement for C5: two keyword-free transactions with a balance
discontinuity. -/
def c5Stmt : ParserV3.BankStatement :=
  { transactions :=
      [⟨"01/02/2024".toList, "Rent AB".toList, "Housing".toList, 100, 0, 50⟩,
       ⟨"02/02/2024".toList, "Rent CD".toList, "Housing".toList, 200, 0, 75⟩] }

theorem c5_frame_amended_witness :
    ((Unified.fix_common_issues c5Stmt []).transactions.getD 1 dTxn).debit =
      (c5Stmt.transactions.getD 1 dTxn).debit ∧
    ((Unified.fix_common_issues c5Stmt []).transactions.getD 1 dTxn).credit =
      (c5Stmt.transactions.getD 1 dTxn).credit ∧
    ((Unified.fix_common_issues c5Stmt []).transactions.getD 1 dTxn).balance =
      (if (1 : Nat) = 0 then c5Stmt.opening_balance
       else ((Unified.fix_common_issues c5Stmt []).transactions.getD
          (1 - 1) dTxn).balance)
      + (c5Stmt.transactions.getD 1 dTxn).credit
      - (c5Stmt.transactions.getD 1 dTxn).debit :=
  (c5_frame_amended c5Stmt [] (by decide)).2 1 (by decide)

/-- The result of `upChar` is never a lowercase letter that appears in
`"Date"`. -/
theorem upChar_ne_a (c : Char) : upChar c ≠ 'a' := by
  unfold upChar
  cases hf : upTable.find? (fun p => p.1 = c) with
  | none =>
      show c ≠ 'a'
      intro hc
      rw [show c = 'a' from hc] at hf
      rw [show upTable.find? (fun p => decide (p.1 = 'a')) = some ('a', 'A')
        from by decide] at hf
      cases hf
  | some x =>
      show x.2 ≠ 'a'
      have hmem := List.mem_of_find?_eq_some hf
      have hall : ∀ y ∈ upTable, y.2 ≠ 'a' := by decide
      exact hall x hmem

theorem startsWith_toUpper_a_cons (s : Str) (z : Str) :
    startsWith (toUpper s) ('a' :: z) = false := by
  cases s with
  | nil => rfl
  | cons c rest =>
      simp only [toUpper, List.map_cons, startsWith, Bool.and_eq_false_iff]
      left
      simpa using upChar_ne_a c

theorem containsSub_toUpper_Date (s : Str) :
    containsSub (toUpper s) ['D', 'a', 't', 'e'] = false := by
  induction s with
  | nil => rfl
  | cons c rest ih =>
      simp only [toUpper, List.map_cons, containsSub, Bool.or_eq_false_iff]
      refine ⟨?_, by simpa [toUpper] using ih⟩
      simp only [startsWith, Bool.and_eq_false_iff]
      right
      exact startsWith_toUpper_a_cons rest ['t', 'e']

/-- C9 amended: the `'Date' in line.upper()` disjunct of the line-skip test
in `parse_bank_table_to_json` never fires (a mixed-case literal cannot
occur in an uppercased string), so a line is skipped as a header only for
lacking a pipe or containing `---`; rows whose descriptions contain "date"
case-insensitively are parsed normally. -/
theorem c9_header_skip_amended (line : Str) :
    TableV3.skipLine line =
      (!(line.contains '|') || containsSub line "---".toList) := by
  unfold TableV3.skipLine
  rw [containsSub_toUpper_Date line, Bool.or_false]
  rfl

/-!
## C8 — date normalization
-/

theorem digitVal_le_9 (c : Char) (k : Nat) (h : ParserV3.digitVal c = some k) :
    k ≤ 9 := by
  unfold ParserV3.digitVal at h
  cases hf : ParserV3.digitTable.find? (fun p => p.1 = c) with
  | none => rw [hf] at h; cases h
  | some x =>
      rw [hf] at h
      have hmem := List.mem_of_find?_eq_some hf
      have hall : ∀ y ∈ ParserV3.digitTable, y.2 ≤ 9 := by decide
      cases h
      exact hall x hmem

theorem monthComp_bounds (s : Str) (m : Nat)
    (h : ParserV3.monthComp s = some m) : 1 ≤ m ∧ m ≤ 12 := by
  match s with
  | [] => cases h
  | [c] =>
      simp only [ParserV3.monthComp] at h
      cases hd : ParserV3.digitVal c with
      | none => rw [hd] at h; cases h
      | some k =>
          rw [hd] at h
          have hk := digitVal_le_9 c k hd
          simp only [Option.ite_none_right_eq_some, Option.some.injEq] at h
          obtain ⟨hk1, rfl⟩ := h
          omega
  | [c1, c2] =>
      simp only [ParserV3.monthComp] at h
      cases hd1 : ParserV3.digitVal c1 with
      | none => rw [hd1] at h; cases h
      | some k1 =>
          cases hd2 : ParserV3.digitVal c2 with
          | none => rw [hd1, hd2] at h; cases h
          | some k2 =>
              rw [hd1, hd2] at h
              have hk2 := digitVal_le_9 c2 k2 hd2
              simp only [Option.ite_none_right_eq_some,
                Option.some.injEq] at h
              obtain ⟨hcond, rfl⟩ := h
              simp only [Bool.or_eq_true, Bool.and_eq_true,
                decide_eq_true_eq] at hcond
              omega
  | _ :: _ :: _ :: _ => cases h

theorem dayComp_bounds (s : Str) (d : Nat)
    (h : ParserV3.dayComp s = some d) : 1 ≤ d ∧ d ≤ 31 := by
  match s with
  | [] => cases h
  | [c] =>
      simp only [ParserV3.dayComp] at h
      cases hd : ParserV3.digitVal c with
      | none => rw [hd] at h; cases h
      | some k =>
          rw [hd] at h
          have hk := digitVal_le_9 c k hd
          simp only [Option.ite_none_right_eq_some, Option.some.injEq] at h
          obtain ⟨hk1, rfl⟩ := h
          omega
  | [c1, c2] =>
      simp only [ParserV3.dayComp] at h
      cases hd1 : ParserV3.digitVal c1 with
      | none => rw [hd1] at h; cases h
      | some k1 =>
          cases hd2 : ParserV3.digitVal c2 with
          | none => rw [hd1, hd2] at h; cases h
          | some k2 =>
              rw [hd1, hd2] at h
              have hk1 := digitVal_le_9 c1 k1 hd1
              have hk2 := digitVal_le_9 c2 k2 hd2
              simp only [Option.ite_none_right_eq_some,
                Option.some.injEq] at h
              obtain ⟨hcond, rfl⟩ := h
              simp only [Bool.or_eq_true, Bool.and_eq_true,
                decide_eq_true_eq] at hcond
              omega
  | _ :: _ :: _ :: _ => cases h

theorem daysInMonth_le_31 (y m : Nat) : ParserV3.daysInMonth y m ≤ 31 := by
  unfold ParserV3.daysInMonth
  split
  · split <;> omega
  · split <;> omega

theorem parseRole_bounds (r : ParserV3.DRole) (s : Str) (k : Nat)
    (h : ParserV3.parseRole r s = some k) :
    (r = ParserV3.DRole.M → 1 ≤ k ∧ k ≤ 12) ∧
    (r = ParserV3.DRole.D → 1 ≤ k ∧ k ≤ 31) := by
  cases r with
  | M =>
      constructor
      · intro hr
        exact monthComp_bounds s k h
      · intro hc
        simp at hc
  | D =>
      constructor
      · intro hc
        simp at hc
      · intro hr
        exact dayComp_bounds s k h
  | Y4 =>
      constructor <;> intro hc <;> simp at hc
  | Y2 =>
      constructor <;> intro hc <;> simp at hc

theorem tryFormat_bounds (fmt : Char × ParserV3.DRole × ParserV3.DRole ×
      ParserV3.DRole) (v : Str) (y m d : Nat)
    (h : ParserV3.tryFormat fmt v = some (y, m, d)) :
    (1 ≤ m ∧ m ≤ 12) ∧ (1 ≤ d ∧ d ≤ 31) ∧ (1 ≤ y ∧ y ≤ 9999) := by
  obtain ⟨sep, r1, r2, r3⟩ := fmt
  simp only [ParserV3.tryFormat] at h
  rcases hsp : splitOn sep (strip v) with - | ⟨a, - | ⟨b, - | ⟨c, - | ⟨e, rest⟩⟩⟩⟩ <;>
    rw [hsp] at h <;> simp only [ParserV3.tryComps] at h <;> try (cases h)
  cases h1 : ParserV3.parseRole r1 a with
  | none => rw [h1] at h; cases h
  | some v1 =>
  cases h2 : ParserV3.parseRole r2 b with
  | none => rw [h1, h2] at h; cases h
  | some v2 =>
  cases h3 : ParserV3.parseRole r3 c with
  | none => rw [h1, h2, h3] at h; cases h
  | some v3 =>
  rw [h1, h2, h3] at h
  cases r1 <;> cases r2 <;> cases r3 <;>
    simp only [ParserV3.selectYMD, Option.ite_none_right_eq_some,
      Option.some.injEq, Prod.mk.injEq, Bool.and_eq_true,
      decide_eq_true_eq] at h
  all_goals try (exact Option.noConfusion h)
  all_goals
    have b1 := parseRole_bounds _ _ _ h1
    have b2 := parseRole_bounds _ _ _ h2
    have b3 := parseRole_bounds _ _ _ h3
    simp at b1 b2 b3
    omega

theorem tryFormatsLoop_all_none (v : Str)
    (fs : List (Char × ParserV3.DRole × ParserV3.DRole × ParserV3.DRole))
    (hall : ∀ f ∈ fs, ParserV3.tryFormat f v = none) :
    ParserV3.tryFormatsLoop v fs = v := by
  induction fs with
  | nil => rfl
  | cons g gs ih =>
      have hg := hall g (by simp)
      simp only [ParserV3.tryFormatsLoop, hg]
      exact ih (fun f hf => hall f (by simp [hf]))

theorem tryFormatsLoop_found (v : Str)
    (fs : List (Char × ParserV3.DRole × ParserV3.DRole × ParserV3.DRole))
    (f) (hf : f ∈ fs) (y m d : Nat)
    (h : ParserV3.tryFormat f v = some (y, m, d)) :
    ∃ f', f' ∈ fs ∧ ∃ y' m' d',
      ParserV3.tryFormat f' v = some (y', m', d') ∧
      ParserV3.tryFormatsLoop v fs = ParserV3.renderDate y' m' d' := by
  induction fs with
  | nil => cases hf
  | cons g gs ih =>
      cases htry : ParserV3.tryFormat g v with
      | some r =>
          obtain ⟨y1, m1, d1⟩ := r
          refine ⟨g, by simp, y1, m1, d1, htry, ?_⟩
          simp only [ParserV3.tryFormatsLoop, htry]
      | none =>
          rcases List.mem_cons.mp hf with rfl | hf'
          · rw [htry] at h; cases h
          · obtain ⟨f', hf'', rest⟩ := ih hf'
            refine ⟨f', by simp [hf''], ?_⟩
            simpa only [ParserV3.tryFormatsLoop, htry] using rest

/-- C8: for every input string, `validate_date` returns the raw string
verbatim when no accepted format matches (never rejecting the value), and
returns the canonical `MM/DD/YYYY` rendering of a successfully parsed,
range-valid date when some accepted format matches. -/
theorem c8_date_normalization (s : Str) :
    ((∀ f ∈ ParserV3.dateFormats, ParserV3.tryFormat f s = none) →
      ParserV3.validate_date s = s) ∧
    (∀ f, f ∈ ParserV3.dateFormats → ∀ y m d,
      ParserV3.tryFormat f s = some (y, m, d) →
      ∃ y' m' d', (1 ≤ m' ∧ m' ≤ 12) ∧ (1 ≤ d' ∧ d' ≤ 31) ∧
        (1 ≤ y' ∧ y' ≤ 9999) ∧
        (∃ f', f' ∈ ParserV3.dateFormats ∧
          ParserV3.tryFormat f' s = some (y', m', d')) ∧
        ParserV3.validate_date s = ParserV3.renderDate y' m' d') := by
  constructor
  · intro hall
    unfold ParserV3.validate_date
    split
    · rename_i hs; exact hs.symm
    · exact tryFormatsLoop_all_none s ParserV3.dateFormats hall
  · intro f hf y m d h
    have hs : s ≠ [] := by
      intro he
      rw [he] at h
      have : ∀ g ∈ ParserV3.dateFormats,
          ParserV3.tryFormat g ([] : Str) = none := by decide
      rw [this f hf] at h
      cases h
    obtain ⟨f', hf', y', m', d', h', hloop⟩ :=
      tryFormatsLoop_found s ParserV3.dateFormats f hf y m d h
    have hb := tryFormat_bounds f' s y' m' d' h'
    refine ⟨y', m', d', hb.1, hb.2.1, hb.2.2, ⟨f', hf', h'⟩, ?_⟩
    unfold ParserV3.validate_date
    rw [if_neg hs]
    exact hloop

theorem c8_date_normalization_witness :
    ∃ y' m' d', (1 ≤ m' ∧ m' ≤ 12) ∧ (1 ≤ d' ∧ d' ≤ 31) ∧
      (1 ≤ y' ∧ y' ≤ 9999) ∧
      (∃ f', f' ∈ ParserV3.dateFormats ∧
        ParserV3.tryFormat f' "1-2-2024".toList = some (y', m', d')) ∧
      ParserV3.validate_date "1-2-2024".toList =
        ParserV3.renderDate y' m' d' :=
  (c8_date_normalization "1-2-2024".toList).2
    ('-', ParserV3.DRole.M, ParserV3.DRole.D, ParserV3.DRole.Y4)
    (by decide) 2024 1 2 (by decide)

/-!
## C7 — reference extraction
-/

theorem lstripP_all (P : Char → Bool) (l : Str) (h : l.all P = true) :
    lstripP P l = [] := by
  induction l with
  | nil => rfl
  | cons c rest ih =>
      simp only [List.all_cons, Bool.and_eq_true] at h
      simp only [lstripP, h.1, if_true]
      exact ih h.2

theorem lstripP_append (P : Char → Bool) (u w : Str) :
    lstripP P (u ++ w) =
      (if u.all P = true then lstripP P w else lstripP P u ++ w) := by
  induction u with
  | nil => simp [lstripP]
  | cons c u' ih =>
      cases hc : P c with
      | true => simp [lstripP, hc, ih]
      | false => simp [lstripP, hc]

theorem rstripP_all (P : Char → Bool) (l : Str) (h : l.all P = true) :
    rstripP P l = [] := by
  unfold rstripP
  rw [lstripP_all P l.reverse (by rwa [List.all_reverse])]
  rfl

theorem rstripP_cons (P : Char → Bool) (c : Char) (l : Str) :
    rstripP P (c :: l) =
      (if (c :: l).all P = true then [] else c :: rstripP P l) := by
  unfold rstripP
  rw [List.reverse_cons, lstripP_append]
  cases hall : l.reverse.all P with
  | true =>
      have hl : l.all P = true := by rwa [List.all_reverse] at hall
      cases hc : P c with
      | true =>
          simp [lstripP, hc, List.all_cons, hl, lstripP_all P l.reverse hall]
      | false =>
          simp [lstripP, hc, List.all_cons, lstripP_all P l.reverse hall]
  | false =>
      have hl : l.all P = false := by rwa [List.all_reverse] at hall
      simp [List.all_cons, hl]

theorem takeWhile_all_append (P : Char → Bool) (u : Str) (c : Char)
    (r : Str) (hu : u.all P = true) (hc : P c = false) :
    (u ++ c :: r).takeWhile P = u := by
  induction u with
  | nil => simp [List.takeWhile, hc]
  | cons x u' ih =>
      simp only [List.all_cons, Bool.and_eq_true] at hu
      simp only [List.cons_append, List.takeWhile, hu.1]
      exact congrArg (List.cons x) (ih hu.2)

theorem drop_len_succ_append (u : Str) (c : Char) (r : Str) :
    (u ++ c :: r).drop (u.length + 1) = r := by
  have h1 : u ++ c :: r = (u ++ [c]) ++ r := by simp
  have h2 : (u ++ [c]).length = u.length + 1 := by simp
  rw [h1, ← h2, List.drop_left]

theorem takeWhile_append_of_not_all (P : Char → Bool) (u z : Str)
    (hu : u.all P = false) :
    (u ++ z).takeWhile P = u.takeWhile P := by
  induction u with
  | nil => simp at hu
  | cons x u' ih =>
      cases hx : P x with
      | true =>
          simp only [List.all_cons, hx, Bool.true_and] at hu
          simp only [List.cons_append, List.takeWhile, hx]
          exact congrArg (List.cons x) (ih hu)
      | false =>
          simp only [List.cons_append, List.takeWhile, hx]

theorem dropWhile_ne_nil_of_not_all (P : Char → Bool) (l : Str)
    (h : l.all P = false) : l.dropWhile P ≠ [] := by
  intro he
  have hsplit := List.takeWhile_append_dropWhile P l
  rw [he, List.append_nil] at hsplit
  rw [← hsplit] at h
  simp [List.all_eq_true] at h

theorem drop_takeWhile_eq_dropWhile (P : Char → Bool) (l : Str) :
    l.drop (l.takeWhile P).length = l.dropWhile P := by
  nth_rewrite 2 [← List.takeWhile_append_dropWhile P l]
  rw [List.drop_left]

theorem dropWhile_append_of_not_all (P : Char → Bool) (u z : Str)
    (hu : u.all P = false) :
    (u ++ z).dropWhile P = u.dropWhile P ++ z := by
  induction u with
  | nil => simp at hu
  | cons x u' ih =>
      cases hx : P x with
      | true =>
          simp only [List.all_cons, hx, Bool.true_and] at hu
          simp only [List.cons_append, List.dropWhile, hx]
          exact ih hu
      | false =>
          simp only [List.cons_append, List.dropWhile, hx]
          rfl

theorem braceRefSearch_spec (p ds q : Str)
    (hp : p.all (fun c => c ≠ lbrace) = true)
    (hne : ds ≠ []) (hds : ds.all isDigit = true) :
    PostProc.braceRefSearch (p ++ lbrace :: (ds ++ rbrace :: q)) =
      some ds := by
  induction p with
  | nil =>
      simp only [List.nil_append, PostProc.braceRefSearch, List.append_eq,
        takeWhile_all_append isDigit ds rbrace q hds (by decide), List.drop_left]
      simp [hne]
  | cons x p' ih =>
      simp only [List.all_cons, Bool.and_eq_true, decide_eq_true_eq] at hp
      simp only [List.cons_append, PostProc.braceRefSearch, if_neg hp.1]
      exact ih (by simp [List.all_eq_true] at hp ⊢; exact hp.2)

theorem subBraceRefAux_nolb (fuel : Nat) (s : Str)
    (hs : s.all (fun c => c ≠ lbrace) = true) :
    PostProc.subBraceRefAux fuel s = s := by
  induction fuel generalizing s with
  | zero => rfl
  | succ f ih =>
      cases s with
      | nil => rfl
      | cons c rest =>
          have hs2 : rest.all (fun c => c ≠ lbrace) = true := by
            simp only [List.all_cons, Bool.and_eq_true] at hs
            exact hs.2
          have hrest := ih rest hs2
          simp only [PostProc.subBraceRefAux]
          cases ht : (c :: rest).drop ((c :: rest).takeWhile isWS).length with
          | nil => simp [ht, hrest]
          | cons b t2 =>
              have hmem : b ∈ c :: rest := by
                have hd : b ∈ (c :: rest).drop ((c :: rest).takeWhile isWS).length := by
                  rw [ht]
                  exact List.mem_cons_self b t2
                exact List.drop_subset _ _ hd
              have hb : b ≠ lbrace := by
                have := List.all_eq_true.mp hs b hmem
                simpa using this
              simp only [ht]
              rw [if_neg hb, hrest]

theorem subBraceRefAux_core (f : Nat) (c : Char) (rest ds q : Str)
    (ht : (c :: rest).drop ((c :: rest).takeWhile isWS).length =
      lbrace :: (ds ++ rbrace :: q))
    (hq : q.all (fun c => c ≠ lbrace) = true)
    (hne : ds ≠ []) (hds : ds.all isDigit = true) :
    PostProc.subBraceRefAux (f + 1) (c :: rest) = q := by
  simp only [PostProc.subBraceRefAux]
  simp only [ht]
  simp only [if_true]
  rw [takeWhile_all_append isDigit ds rbrace q hds (by decide),
    List.drop_left, drop_len_succ_append, subBraceRefAux_nolb f q hq]
  simp [hne]

theorem subBraceRefAux_spec (fuel : Nat) (p ds q : Str)
    (hfuel : p.length + 1 ≤ fuel)
    (hp : p.all (fun c => c ≠ lbrace) = true)
    (hq : q.all (fun c => c ≠ lbrace) = true)
    (hne : ds ≠ []) (hds : ds.all isDigit = true) :
    PostProc.subBraceRefAux fuel (p ++ lbrace :: (ds ++ rbrace :: q)) =
      rstripP isWS p ++ q := by
  induction p generalizing fuel with
  | nil =>
      cases fuel with
      | zero => omega
      | succ f =>
          have hws0 : isWS lbrace = false := by decide
          have ht : (lbrace :: (ds ++ rbrace :: q)).drop
              ((lbrace :: (ds ++ rbrace :: q)).takeWhile isWS).length =
              lbrace :: (ds ++ rbrace :: q) := by
            simp [List.takeWhile_cons, hws0]
          have h := subBraceRefAux_core f lbrace (ds ++ rbrace :: q) ds q ht hq hne hds
          simpa [rstripP, lstripP] using h
  | cons x p' ih =>
      cases fuel with
      | zero => omega
      | succ f =>
          have hp2 : p'.all (fun c => c ≠ lbrace) = true := by
            simp only [List.all_cons, Bool.and_eq_true] at hp
            exact hp.2
          by_cases hall : (x :: p').all isWS = true
          · have htw : (x :: (p' ++ lbrace :: (ds ++ rbrace :: q))).takeWhile isWS
                = x :: p' := by
              have h0 := takeWhile_all_append isWS (x :: p') lbrace
                (ds ++ rbrace :: q) hall (by decide)
              simpa using h0
            have ht : (x :: (p' ++ lbrace :: (ds ++ rbrace :: q))).drop
                ((x :: (p' ++ lbrace :: (ds ++ rbrace :: q))).takeWhile isWS).length
                = lbrace :: (ds ++ rbrace :: q) := by
              rw [htw]
              have h0 := List.drop_left (x :: p') (lbrace :: (ds ++ rbrace :: q))
              simp only [List.cons_append] at h0
              exact h0
            have h := subBraceRefAux_core f x (p' ++ lbrace :: (ds ++ rbrace :: q))
              ds q ht hq hne hds
            rw [rstripP_all isWS (x :: p') hall]
            simpa using h
          · have hallf : (x :: p').all isWS = false := by
              cases hv : (x :: p').all isWS
              · rfl
              · exact absurd hv hall
            have hdw := dropWhile_ne_nil_of_not_all isWS (x :: p') hallf
            cases hpd : (x :: p').dropWhile isWS with
            | nil => exact absurd hpd hdw
            | cons b pd' =>
                have hbmem : b ∈ x :: p' := by
                  have hd : b ∈ (x :: p').dropWhile isWS := by
                    rw [hpd]
                    exact List.mem_cons_self b pd'
                  exact List.dropWhile_subset _ hd
                have hb : b ≠ lbrace := by
                  have h0 := List.all_eq_true.mp hp b hbmem
                  simpa using h0
                have ht : (x :: (p' ++ lbrace :: (ds ++ rbrace :: q))).drop
                    ((x :: (p' ++ lbrace :: (ds ++ rbrace :: q))).takeWhile isWS).length
                    = b :: (pd' ++ lbrace :: (ds ++ rbrace :: q)) := by
                  rw [drop_takeWhile_eq_dropWhile]
                  have h0 := dropWhile_append_of_not_all isWS (x :: p')
                    (lbrace :: (ds ++ rbrace :: q)) hallf
                  simp only [List.cons_append] at h0
                  rw [h0, hpd]
                  simp
                simp only [List.cons_append, PostProc.subBraceRefAux]
                simp only [ht]
                rw [if_neg hb]
                rw [ih f (by simp at hfuel; omega) hp2]
                rw [rstripP_cons isWS x p', if_neg (by simp [hallf])]
                simp

theorem fixTxnDesc_brace (date : Str) (ref0 : Option Str) (db cr bal : Q)
    (p ds q : Str)
    (hp : p.all (fun c => c ≠ lbrace) = true)
    (hq : q.all (fun c => c ≠ lbrace) = true)
    (hne : ds ≠ []) (hds : ds.all isDigit = true) :
    PostProc.fixTxnDesc
        ⟨date, p ++ lbrace :: (ds ++ rbrace :: q), ref0, db, cr, bal⟩ =
      ⟨date, strip (rstripP isWS p ++ q), some ds, db, cr, bal⟩ := by
  have hcl : (p ++ lbrace :: (ds ++ rbrace :: q)).contains lbrace = true := by
    have hm : lbrace ∈ p ++ lbrace :: (ds ++ rbrace :: q) := by simp
    exact List.elem_eq_true_of_mem hm
  have hcr2 : (p ++ lbrace :: (ds ++ rbrace :: q)).contains rbrace = true := by
    have hm : rbrace ∈ p ++ lbrace :: (ds ++ rbrace :: q) := by simp
    exact List.elem_eq_true_of_mem hm
  have hbr := braceRefSearch_spec p ds q hp hne hds
  have hsub : PostProc.subBraceRef (p ++ lbrace :: (ds ++ rbrace :: q)) =
      rstripP isWS p ++ q := by
    unfold PostProc.subBraceRef
    refine subBraceRefAux_spec _ p ds q ?_ hp hq hne hds
    simp [List.length_append]
  simp only [PostProc.fixTxnDesc, hcl, hcr2, hbr, hsub, Bool.and_self, if_true]
  split <;> simp

/-- C7: reference extraction. For every transaction whose description is of
the form `p ++ "\x7b" ++ ds ++ "\x7d" ++ q` with `ds` a non-empty digit
string and no other opening brace in `p` or `q` (and whose description does
not mention an opening balance, so the row is kept), post-processing sets
`reference` to the digits `ds` and rewrites `description` with the brace
group and the whitespace immediately before it removed, then stripped —
for `"Payment \x7b12345\x7d"` this yields reference `"12345"` and
description `"Payment"`. -/
theorem c7_reference_extraction (date : Str) (ref0 : Option Str)
    (db cr bal : Q) (p ds q : Str)
    (hp : p.all (fun c => c ≠ lbrace) = true)
    (hq : q.all (fun c => c ≠ lbrace) = true)
    (hne : ds ≠ []) (hds : ds.all isDigit = true)
    (hob : containsSub (toLower (p ++ lbrace :: (ds ++ rbrace :: q)))
      "opening balance".toList = false) :
    (PostProc.validate_and_fix_bank_extraction
        [⟨date, p ++ lbrace :: (ds ++ rbrace :: q), ref0, db, cr, bal⟩]).transactions =
      [⟨date, strip (rstripP isWS p ++ q), some ds, db, cr, bal⟩] := by
  simp only [PostProc.validate_and_fix_bank_extraction, hob]
  simp only [List.map]
  rw [fixTxnDesc_brace date ref0 db cr bal p ds q hp hq hne hds]

theorem c7_reference_extraction_witness :
    (PostProc.validate_and_fix_bank_extraction
        [⟨"01/02/2024".toList, "Payment \x7b12345\x7d".toList,
          none, 0, 0, 0⟩]).transactions =
      [⟨"01/02/2024".toList, "Payment".toList, some "12345".toList, 0, 0, 0⟩] :=
  (c7_reference_extraction "01/02/2024".toList none 0 0 0 "Payment ".toList
      "12345".toList [] (by decide) (by decide) (by decide) (by decide)
      (by decide)).trans (by decide)
